import Mathlib

/-!
Shallow embedding of the computational core of the DAPI student-record
application (`app.py`), together with theorems checking the specification's
claims about it.

Modelling conventions:
* Python `float` values are modelled as rationals (`ℚ`); the 2-decimal
  rounding performed by the fixed-point float formatting is modelled as round-half-to-even
  at two decimal places (`round2`).
* Python `date` values are modelled by their proleptic-Gregorian ordinal
  (`ℕ`, with day 1 = 0001-01-01), exactly as in `datetime.date.toordinal`;
  `date.weekday()` becomes `weekday` below (Monday = 0 .. Sunday = 6).
* SQLite tables are modelled as Lean lists of records; an SQL
  `UPDATE .. WHERE`/`DELETE .. WHERE` becomes a `List.map`/`List.filter`.
* Each `conn.commit()` in a handler appends the current database state to the
  handler's list of committed states, so transactional behaviour is visible.
* Strings are Lean `String`s; digits are modelled as ASCII digits.
* Form inputs are modelled as already stripped (and, for emails, already
  lowercased) values, which is the external interface the specification
  gives the core ("receives already-parsed, already-trimmed field values
  from a request-handling layer"): the `.strip()`/`.lower()` calls the
  handlers perform at the form boundary are the identity on such values.
-/

/-- Round-half-to-even of a rational to an integer (the rounding used by
Python's fixed-point string formatting). -/
def hre (x : ℚ) : ℤ :=
  if x - ⌊x⌋ < 1/2 then ⌊x⌋
  else if 1/2 < x - ⌊x⌋ then ⌊x⌋ + 1
  else if ⌊x⌋ % 2 = 0 then ⌊x⌋ else ⌊x⌋ + 1

/-- Model of Python's 2-decimal fixed-point float formatting: round to two decimal places. -/
def round2 (x : ℚ) : ℚ := (hre (x * 100) : ℚ) / 100

/-- Python `date.weekday()` on ordinals: ordinal 1 (0001-01-01) is a Monday (0);
Sunday is 6. -/
def weekday (o : ℕ) : ℕ := (o + 6) % 7

/-- Embedding of `college_working_days` (app.py:144-148): inclusive day count
between two ordinals, skipping Sundays, and 0 when the range is empty. -/
def college_working_days (start_date end_date : ℕ) : ℕ :=
  if end_date < start_date then 0
  else (List.range (end_date + 1 - start_date)).countP
    (fun i => decide (weekday (start_date + i) ≠ 6))

/-- Spec-side working-day count: the number of days in the inclusive range
`[start, end]` whose day-of-week index is not 6. -/
def workingDaysSpec (start_date end_date : ℕ) : ℕ :=
  ((Finset.Icc start_date end_date).filter (fun d => weekday d ≠ 6)).card

/-- Leap-year rule of the proleptic Gregorian calendar (as in Python's
`datetime`). -/
def isLeap (y : ℕ) : Bool := y % 4 == 0 && (y % 100 != 0 || y % 400 == 0)

/-- Number of days of month `m` (1-12) in year `y`, as validated by
`datetime.date`. -/
def daysInMonth (y m : ℕ) : ℕ :=
  if m = 2 then (if isLeap y then 29 else 28)
  else if m = 4 ∨ m = 6 ∨ m = 9 ∨ m = 11 then 30
  else 31

/-- A (year, month, day) triple that `datetime.date` accepts (year is further
limited to 4 digits, the only years `%Y` can parse). -/
def validDate (y m d : ℕ) : Prop :=
  1 ≤ y ∧ y ≤ 9999 ∧ 1 ≤ m ∧ m ≤ 12 ∧ 1 ≤ d ∧ d ≤ daysInMonth y m

instance (y m d : ℕ) : Decidable (validDate y m d) := by
  unfold validDate; infer_instance

/-- Days in the years before year `y` (Python `datetime._days_before_year`). -/
def daysBeforeYear (y : ℕ) : ℕ :=
  365 * (y - 1) + (y - 1) / 4 - (y - 1) / 100 + (y - 1) / 400

/-- Days in year `y` before month `m` (Python `datetime._days_before_month`). -/
def daysBeforeMonth (y m : ℕ) : ℕ :=
  ((List.range (m - 1)).map (fun k => daysInMonth y (k + 1))).sum

/-- Proleptic-Gregorian ordinal of a calendar date (Python
`datetime.date.toordinal`; 0001-01-01 is ordinal 1). -/
def toOrdinal (y m d : ℕ) : ℕ := daysBeforeYear y + daysBeforeMonth y m + d

/-- Numeric value of an ASCII digit character. -/
def digitVal (c : Char) : ℕ := c.toNat - 48

/-- One field of `%Y-%m-%d`, matching CPython's `_strptime` regular
expressions. `%m` compiles to `1[0-2]|0[1-9]|[1-9]` and `%d` to
`3[01]|[12]\d|0[1-9]|[1-9]`: a two-character match (value `1..hi` with
`hi = 12` resp. `31`) is preferred, otherwise a single nonzero digit is
taken. Backtracking cannot produce any other outcome for this format, since
a two-character match leaves the following character a digit, which can
never match the literal dash or end-of-input required next. -/
def parseNum2or1 (hi : ℕ) (cs : List Char) : Option (ℕ × List Char) :=
  match cs with
  | a :: b :: rest =>
      if a.isDigit ∧ b.isDigit ∧ 1 ≤ 10 * digitVal a + digitVal b ∧
          10 * digitVal a + digitVal b ≤ hi then
        some (10 * digitVal a + digitVal b, rest)
      else if a.isDigit ∧ 1 ≤ digitVal a then some (digitVal a, b :: rest)
      else none
  | [a] => if a.isDigit ∧ 1 ≤ digitVal a then some (digitVal a, []) else none
  | [] => none

/-- Core of `parse_ymd` on a character list: the year takes exactly four
digits (`%Y` compiles to `\d\d\d\d`), each separator is a literal dash, the
whole string must be consumed, and the resulting triple must be a date that
`datetime.date` accepts. -/
def parseYMDCore (cs : List Char) : Option (ℕ × ℕ × ℕ) :=
  match cs with
  | a :: b :: c :: d :: '-' :: rest1 =>
      if a.isDigit ∧ b.isDigit ∧ c.isDigit ∧ d.isDigit then
        let y := 1000 * digitVal a + 100 * digitVal b + 10 * digitVal c + digitVal d
        match parseNum2or1 12 rest1 with
        | some (m, '-' :: rest2) =>
            match parseNum2or1 31 rest2 with
            | some (dd, []) =>
                if 1 ≤ y ∧ dd ≤ daysInMonth y m then some (y, m, dd) else none
            | _ => none
        | _ => none
      else none
  | _ => none

/-- Embedding of `parse_ymd` (app.py:140-141):
`datetime.strptime(s, "%Y-%m-%d").date()`, returning `none` where the Python
code raises `ValueError`. -/
def parse_ymd (s : String) : Option (ℕ × ℕ × ℕ) := parseYMDCore s.data

/-- The two-digit (zero-padded) rendering of a number below 100. -/
def numChars2 (n : ℕ) : List Char := [Nat.digitChar (n / 10), Nat.digitChar (n % 10)]

/-- The single-digit rendering of a number below 10. -/
def numChars1 (n : ℕ) : List Char := [Nat.digitChar n]

/-- The renderings of a month/day number that `%m`/`%d` accept: the
zero-padded two-digit form always, the bare single digit when `n < 10`. -/
def numForms (n : ℕ) : List (List Char) :=
  if n < 10 then [numChars2 n, numChars1 n] else [numChars2 n]

/-- The four-digit rendering of a year (the only form `%Y` accepts). -/
def digits4 (y : ℕ) : List Char :=
  [Nat.digitChar (y / 1000), Nat.digitChar (y / 100 % 10),
   Nat.digitChar (y / 10 % 10), Nat.digitChar (y % 10)]

/-- All character strings denoting the date `(y, m, d)` in the (relaxed)
dash-separated format accepted by `strptime("%Y-%m-%d")`. -/
def ymdRenderings (y m d : ℕ) : List (List Char) :=
  (numForms m).flatMap fun mf => (numForms d).map fun df =>
    digits4 y ++ '-' :: (mf ++ '-' :: df)

/-- Spec-side acceptance predicate for the amended parsing claim: the string
denotes a valid calendar date, with a four-digit year and a one- or
two-digit month and day, dash-separated with nothing else. -/
def acceptableYMD (s : String) : Prop :=
  ∃ y m d, validDate y m d ∧ s.data ∈ ymdRenderings y m d

/-- The strict textual `YYYY-MM-DD` shape the original claim refers to:
four digits, dash, exactly two digits, dash, exactly two digits. -/
def strictYMDForm (s : String) : Prop :=
  ∃ y m d, s.data = digits4 y ++ '-' :: (numChars2 m ++ '-' :: numChars2 d)

/-- A row of the `students` table (app.py:46-79). `REAL` columns are
rationals, nullable ones are `Option`; numeric form fields are modelled
after `safe_int`/`safe_float` parsing. -/
structure StudentRow where
  id : ℤ
  user_email : String
  student_id : String
  roll : String
  name : String
  contact_email : String
  phone : String
  parent_phone : String
  address : String
  department : String
  mentor_name : String
  scholar_type : String
  warden_name : String
  room_no : String
  tenth : String
  twelfth : String
  semester_start : String
  present_days : ℤ
  arrear_count : ℤ
  sem1 : Option ℚ
  sem2 : Option ℚ
  sem3 : Option ℚ
  sem4 : Option ℚ
  sem5 : Option ℚ
  sem6 : Option ℚ
  sem7 : Option ℚ
  sem8 : Option ℚ
  placement_score : ℚ
deriving DecidableEq

/-- A row of the `skills` table (app.py:81-88). -/
structure SkillRow where
  id : ℤ
  student_email : String
  skill_name : String
  levels_completed : ℤ
deriving DecidableEq

/-- A row of the `achievements` table (app.py:90-99). -/
structure AchRow where
  id : ℤ
  student_email : String
  title : String
  level : String
  date_str : String
  description : String
deriving DecidableEq

/-- A row of the `certifications` table (app.py:101-110). -/
structure CertRow where
  id : ℤ
  student_email : String
  name : String
  provider : String
  issue_date : String
  credential_url : String
deriving DecidableEq

/-- The database. The `users` table is reduced to its unique login emails
(role and password hash never influence the claims checked here). -/
structure DB where
  users : List String
  students : List StudentRow
  skills : List SkillRow
  achievements : List AchRow
  certifications : List CertRow
deriving DecidableEq

/-- Query `SELECT * FROM students WHERE user_email=?` (point lookup). -/
def findStudent (db : DB) (e : String) : Option StudentRow :=
  db.students.find? (fun s => s.user_email == e)

/-- The eight nullable semester scores of a student row. -/
def semList (r : StudentRow) : List (Option ℚ) :=
  [r.sem1, r.sem2, r.sem3, r.sem4, r.sem5, r.sem6, r.sem7, r.sem8]

/-- Embedding of `calc_cgpa` (app.py:166-177): mean of the non-null
semester scores rounded to 2 decimals, `none` when all are null. -/
def calc_cgpa (r : StudentRow) : Option ℚ :=
  let sems := (semList r).filterMap id
  if sems.isEmpty then none
  else some (round2 (sems.sum / (sems.length : ℚ)))

/-- Query `SELECT COALESCE(SUM(levels_completed),0) FROM skills WHERE student_email=?`. -/
def skillTotal (db : DB) (e : String) : ℤ :=
  ((db.skills.filter (fun r => r.student_email == e)).map
    (fun r => r.levels_completed)).sum

/-- Query `SELECT COUNT(*) FROM achievements WHERE student_email=?`. -/
def achCount (db : DB) (e : String) : ℕ :=
  (db.achievements.filter (fun r => r.student_email == e)).length

/-- Query `SELECT COUNT(*) FROM certifications WHERE student_email=?`. -/
def certCount (db : DB) (e : String) : ℕ :=
  (db.certifications.filter (fun r => r.student_email == e)).length

/-- Embedding of `calc_placement_score` (app.py:189-221). -/
def calc_placement_score (db : DB) (e : String) (row : StudentRow) : ℚ :=
  let cg : ℚ := (calc_cgpa row).getD 0
  let cg_part : ℚ := cg / 10 * 50
  let skill_part : ℚ := min 30 ((skillTotal db e : ℚ) / 100 * 30)
  let ach_part : ℚ := min 10 ((achCount db e : ℚ) * (5/2))
  let cert_part : ℚ := min 10 ((certCount db e : ℚ) * 2)
  let arrears : ℤ := max 0 row.arrear_count
  let penalty : ℚ := min 40 ((arrears : ℚ) * 10)
  round2 (max 0 (min 100 (cg_part + skill_part + ach_part + cert_part - penalty)))

/-- Body of `calc_attendance` (app.py:157-163) once the start date has been
resolved to an ordinal: `val` is the raw percentage, rounded when the total
is positive, then clamped to [0, 100]. -/
def attendanceFrom (start today : ℕ) (present : ℤ) : ℕ × ℤ × ℚ :=
  (college_working_days start today, present,
    max 0 (min 100
      (if college_working_days start today ≤ 0 then 0
       else round2
         (if 0 < college_working_days start today then
            (present : ℚ) / ((college_working_days start today : ℕ) : ℚ) * 100
          else 0))))

/-- The `try: parse_ymd(...) except: date.today()` start-date resolution of
`calc_attendance` (app.py:152-155), on ordinals. -/
def resolveStart (r : StudentRow) (today : ℕ) : ℕ :=
  match parse_ymd r.semester_start with
  | some (y, m, d) => toOrdinal y m d
  | none => today

/-- Embedding of `calc_attendance` (app.py:151-163). `today` is the ordinal
of `date.today()`; an unparseable `semester_start` falls back to it. -/
def calc_attendance (r : StudentRow) (today : ℕ) : ℕ × ℤ × ℚ :=
  attendanceFrom (resolveStart r today) today r.present_days

/-- Statement `UPDATE students SET placement_score=? WHERE user_email=?` as a row
transformation. -/
def setScoreFun (e : String) (v : ℚ) : StudentRow → StudentRow :=
  fun s => if s.user_email == e then { s with placement_score := v } else s

/-- Embedding of `refresh_score` (app.py:224-230), as a pure database
transformation: recompute the placement score of the student with the given
login email and store it; do nothing when the student does not exist. -/
def refreshDB (db : DB) (e : String) : DB :=
  match findStudent db e with
  | none => db
  | some r =>
      { db with
        students := db.students.map (setScoreFun e (calc_placement_score db e r)) }

/-- The commits performed by `refresh_score`: its `conn.commit()` runs only
when the student row was found. -/
def refreshCommits (db : DB) (e : String) : List DB :=
  match findStudent db e with
  | none => []
  | some _ => [refreshDB db e]

/-- The `conn.commit(); refresh_score(conn, email)` pattern every mutating
handler ends with: the mutated state `db1` is committed first, then
`refresh_score` runs (committing again when the student exists). -/
def commitWithRefresh (db1 : DB) (e : String) : List DB × Option String :=
  (db1 :: refreshCommits db1 e, none)

/-- Returns `true` when the stored placement score of student `e` (if any) agrees
with what `calc_placement_score` returns on the current state. -/
def scoreMatches (db : DB) (e : String) : Bool :=
  match findStudent db e with
  | none => true
  | some r => decide (r.placement_score = calc_placement_score db e r)

/-- Python `str.endswith`, expressed on the underlying character lists. -/
def strEndsWith (s suffix : String) : Bool := decide (suffix.data.IsSuffix s.data)

/-- Embedding of `validate_email_role` (app.py:180-186). Its internal
`(email or "").strip().lower()` normalization is the identity on the
boundary-normalized inputs this embedding receives (see the module
docstring), so `e` is `email` itself. -/
def validate_email_role (email role : String) : Bool :=
  let e := email
  if role = "student" then strEndsWith e ".student@gmail.com"
  else if role = "staff" then strEndsWith e ".staff@gmail.com"
  else false

/-- Statement `DELETE FROM skills WHERE id=? AND student_email=?` — the owner-scoped
skill delete used by both the student portal (app.py:480) and the staff
portal (app.py:688). -/
def deleteSkillRows (tbl : List SkillRow) (i : ℤ) (e : String) : List SkillRow :=
  tbl.filter (fun r => !(r.id == i && r.student_email == e))

/-- Statement `DELETE FROM achievements WHERE id=? AND student_email=?` (app.py:504). -/
def deleteAchRows (tbl : List AchRow) (i : ℤ) (e : String) : List AchRow :=
  tbl.filter (fun r => !(r.id == i && r.student_email == e))

/-- Statement `DELETE FROM certifications WHERE id=? AND student_email=?` (app.py:527). -/
def deleteCertRows (tbl : List CertRow) (i : ℤ) (e : String) : List CertRow :=
  tbl.filter (fun r => !(r.id == i && r.student_email == e))

/-- Fresh `AUTOINCREMENT` id for a new student row. -/
def freshStudentId (db : DB) : ℤ := (db.students.map (fun s => s.id)).foldr max 0 + 1

/-- Fresh `AUTOINCREMENT` id for a new skill row. -/
def freshSkillId (db : DB) : ℤ := (db.skills.map (fun s => s.id)).foldr max 0 + 1

/-- Fresh `AUTOINCREMENT` id for a new achievement row. -/
def freshAchId (db : DB) : ℤ := (db.achievements.map (fun s => s.id)).foldr max 0 + 1

/-- Fresh `AUTOINCREMENT` id for a new certification row. -/
def freshCertId (db : DB) : ℤ := (db.certifications.map (fun s => s.id)).foldr max 0 + 1

/-- Statement `UPDATE students SET ... WHERE user_email=?`. -/
def updateStudents (db : DB) (e : String) (f : StudentRow → StudentRow) : DB :=
  { db with students := db.students.map (fun s => if s.user_email == e then f s else s) }

/-- The form fields of `POST /register/student` (app.py:275-300). Numeric
fields carry the result of `safe_int` (an integer, 0 on bad input); semester
fields carry the result of `safe_float` (null on bad input). -/
structure RegInput where
  login_email : String
  login_pass : String
  student_id : String
  roll : String
  name : String
  contact_email : String
  phone : String
  parent_phone : String
  address : String
  department : String
  mentor_name : String
  scholar_type : String
  warden_name : String
  room_no : String
  tenth : String
  twelfth : String
  semester_start : String
  present_days : ℤ
  arrear_count : ℤ
  sem1 : Option ℚ
  sem2 : Option ℚ
  sem3 : Option ℚ
  sem4 : Option ℚ
  sem5 : Option ℚ
  sem6 : Option ℚ
  sem7 : Option ℚ
  sem8 : Option ℚ
deriving DecidableEq

/-- The `not all([...])` required-field test of `register_student`
(app.py:302-303), on the boundary-normalized form values. -/
def regMissingRequired (inp : RegInput) : Prop :=
  inp.login_email = "" ∨ inp.login_pass = "" ∨
  inp.student_id = "" ∨ inp.roll = "" ∨ inp.name = "" ∨
  inp.contact_email = "" ∨ inp.phone = "" ∨
  inp.parent_phone = "" ∨ inp.address = "" ∨
  inp.department = "" ∨ inp.mentor_name = "" ∨
  inp.tenth = "" ∨ inp.twelfth = "" ∨ inp.semester_start = ""

instance (inp : RegInput) : Decidable (regMissingRequired inp) := by
  unfold regMissingRequired; infer_instance

/-- The student row inserted by `register_student` (app.py:329-342):
warden/room are stored only for Hostellers, counts are clamped to 0, and
`placement_score` takes its column default 0. -/
def regRow (db : DB) (inp : RegInput) : StudentRow :=
  { id := freshStudentId db
    user_email := inp.login_email
    student_id := inp.student_id
    roll := inp.roll
    name := inp.name
    contact_email := inp.contact_email
    phone := inp.phone
    parent_phone := inp.parent_phone
    address := inp.address
    department := inp.department
    mentor_name := inp.mentor_name
    scholar_type := inp.scholar_type
    warden_name := if inp.scholar_type = "Hosteller" then inp.warden_name else ""
    room_no := if inp.scholar_type = "Hosteller" then inp.room_no else ""
    tenth := inp.tenth
    twelfth := inp.twelfth
    semester_start := inp.semester_start
    present_days := max 0 inp.present_days
    arrear_count := max 0 inp.arrear_count
    sem1 := inp.sem1
    sem2 := inp.sem2
    sem3 := inp.sem3
    sem4 := inp.sem4
    sem5 := inp.sem5
    sem6 := inp.sem6
    sem7 := inp.sem7
    sem8 := inp.sem8
    placement_score := 0 }

/-- The database after the two inserts of `register_student` (users row and
students row, app.py:325-342). -/
def regDB1 (db : DB) (inp : RegInput) : DB :=
  { db with
    users := db.users ++ [inp.login_email]
    students := db.students ++ [regRow db inp] }

/-- Embedding of the `register_student` POST handler (app.py:270-352).
Returns the list of committed database states (one entry per
`conn.commit()` that ran, in order) together with the error message, if
any. On a unique-key violation SQLite raises before the commit, so nothing
is committed. -/
def register_student (db : DB) (inp : RegInput) : List DB × Option String :=
  if regMissingRequired inp then
    ([], some "Please fill all required fields")
  else if ¬ validate_email_role inp.login_email "student" then
    ([], some "Student email must be like \"name\".student@gmail.com")
  else if (parse_ymd inp.semester_start).isNone then
    ([], some "Semester Start must be YYYY-MM-DD")
  else if inp.scholar_type = "Hosteller" ∧ (inp.warden_name = "" ∨ inp.room_no = "") then
    ([], some "If Hosteller: warden name + room no required")
  else if inp.login_email ∈ db.users ∨
      db.students.any (fun s => s.user_email == inp.login_email || s.roll == inp.roll) then
    ([], some "Email or Roll already exists")
  else
    commitWithRefresh (regDB1 db inp) inp.login_email

/-- The POST forms of the student portal (app.py:405-530), by `form_type`. -/
inductive PortalForm where
  | profile (name contact_email phone parent_phone address department
      mentor_name scholar_type warden_name room_no : String)
  | academics (semester_start : String) (present_days arrear_count : ℤ)
      (sem1 sem2 sem3 sem4 sem5 sem6 sem7 sem8 : Option ℚ)
  | skill_add (skill_name : String) (levels_completed : ℤ)
  | skill_delete (id : ℤ)
  | ach_add (title level date_str description : String)
  | ach_delete (id : ℤ)
  | cert_add (name provider issue_date credential_url : String)
  | cert_delete (id : ℤ)
deriving DecidableEq

/-- Embedding of the `student_portal` POST handler (app.py:388-530) for the
logged-in student `email`. Returns the committed database states (in
order) and the error message, if any. A session without a student row is
redirected to registration (app.py:398-400) and commits nothing. -/
def student_portal (db : DB) (email : String) (f : PortalForm) : List DB × Option String :=
  match findStudent db email with
  | none => ([], none)
  | some _ =>
    match f with
    | .profile name contact_email phone parent_phone address department
        mentor_name scholar_type warden_name room_no =>
        let name := name
        let contact_email := contact_email
        let phone := phone
        let parent_phone := parent_phone
        let address := address
        let department := department
        let mentor_name := mentor_name
        let scholar_type := scholar_type
        let warden_name := warden_name
        let room_no := room_no
        if name = "" ∨ contact_email = "" ∨ phone = "" ∨ parent_phone = "" ∨
            address = "" ∨ department = "" ∨ mentor_name = "" then
          ([], some "Fill all required fields")
        else if scholar_type = "Hosteller" ∧ (warden_name = "" ∨ room_no = "") then
          ([], some "If Hosteller: warden name + room no required")
        else
          ([updateStudents db email (fun s =>
            { s with
              name := name
              contact_email := contact_email
              phone := phone
              parent_phone := parent_phone
              address := address
              department := department
              mentor_name := mentor_name
              scholar_type := scholar_type
              warden_name := if scholar_type = "Hosteller" then warden_name else ""
              room_no := if scholar_type = "Hosteller" then room_no else "" })],
           none)
    | .academics semester_start present_days arrear_count s1 s2 s3 s4 s5 s6 s7 s8 =>
        let semester_start := semester_start
        if (parse_ymd semester_start).isNone then
          ([], some "Semester Start must be YYYY-MM-DD")
        else
          let db1 := updateStudents db email (fun s =>
            { s with
              semester_start := semester_start
              present_days := max 0 present_days
              arrear_count := max 0 arrear_count
              sem1 := s1
              sem2 := s2
              sem3 := s3
              sem4 := s4
              sem5 := s5
              sem6 := s6
              sem7 := s7
              sem8 := s8 })
          commitWithRefresh db1 email
    | .skill_add skill_name levels_completed =>
        let skill_name := skill_name
        if skill_name = "" then ([], some "Skill name required")
        else
          let db1 : DB :=
            { db with
              skills := db.skills ++
                [{ id := freshSkillId db
                   student_email := email
                   skill_name := skill_name
                   levels_completed := max 0 (min 10 levels_completed) }] }
          commitWithRefresh db1 email
    | .skill_delete i =>
        let db1 : DB := { db with skills := deleteSkillRows db.skills i email }
        commitWithRefresh db1 email
    | .ach_add title level date_str description =>
        let title := title
        if title = "" then ([], some "Achievement title required")
        else
          let db1 : DB :=
            { db with
              achievements := db.achievements ++
                [{ id := freshAchId db
                   student_email := email
                   title := title
                   level := level
                   date_str := date_str
                   description := description }] }
          commitWithRefresh db1 email
    | .ach_delete i =>
        let db1 : DB := { db with achievements := deleteAchRows db.achievements i email }
        commitWithRefresh db1 email
    | .cert_add name provider issue_date credential_url =>
        let name := name
        if name = "" then ([], some "Certification name required")
        else
          let db1 : DB :=
            { db with
              certifications := db.certifications ++
                [{ id := freshCertId db
                   student_email := email
                   name := name
                   provider := provider
                   issue_date := issue_date
                   credential_url := credential_url }] }
          commitWithRefresh db1 email
    | .cert_delete i =>
        let db1 : DB := { db with certifications := deleteCertRows db.certifications i email }
        commitWithRefresh db1 email

/-- The fields of the staff `edit` form (app.py:626-671). -/
structure StaffEditInput where
  name : String
  contact_email : String
  phone : String
  parent_phone : String
  address : String
  department : String
  mentor_name : String
  scholar_type : String
  warden_name : String
  room_no : String
  semester_start : String
  present_days : ℤ
  arrear_count : ℤ
  sem1 : Option ℚ
  sem2 : Option ℚ
  sem3 : Option ℚ
  sem4 : Option ℚ
  sem5 : Option ℚ
  sem6 : Option ℚ
  sem7 : Option ℚ
  sem8 : Option ℚ
deriving DecidableEq

/-- Embedding of the `staff_student_portal` `edit` branch (app.py:606-671),
keyed by the student's internal id. Mirrors the source's error handling: the
required/date check runs first and the Hosteller check may overwrite its
message; the update and the score refresh run only when no error is set.
An unknown id yields a 404 and commits nothing. -/
def staff_student_edit (db : DB) (sid : ℤ) (inp : StaffEditInput) : List DB × Option String :=
  match db.students.find? (fun s => s.id == sid) with
  | none => ([], none)
  | some st =>
      let name := inp.name
      let contact_email := inp.contact_email
      let phone := inp.phone
      let parent_phone := inp.parent_phone
      let address := inp.address
      let department := inp.department
      let mentor_name := inp.mentor_name
      let scholar_type := inp.scholar_type
      let warden_name := inp.warden_name
      let room_no := inp.room_no
      let semester_start := inp.semester_start
      let err0 : Option String :=
        if name = "" ∨ contact_email = "" ∨ phone = "" ∨ parent_phone = "" ∨
            address = "" ∨ department = "" ∨ mentor_name = "" ∨ semester_start = "" then
          some "Fill all required fields"
        else if (parse_ymd semester_start).isNone then
          some "Semester Start must be YYYY-MM-DD"
        else none
      let err : Option String :=
        if scholar_type = "Hosteller" ∧ (warden_name = "" ∨ room_no = "") then
          some "If Hosteller: warden name + room no required"
        else err0
      match err with
      | some msg => ([], some msg)
      | none =>
          let db1 : DB :=
            { db with
              students := db.students.map (fun s =>
                if s.id == sid then
                  { s with
                    name := name
                    contact_email := contact_email
                    phone := phone
                    parent_phone := parent_phone
                    address := address
                    department := department
                    mentor_name := mentor_name
                    scholar_type := scholar_type
                    warden_name := if scholar_type = "Hosteller" then warden_name else ""
                    room_no := if scholar_type = "Hosteller" then room_no else ""
                    semester_start := semester_start
                    present_days := max 0 inp.present_days
                    arrear_count := max 0 inp.arrear_count
                    sem1 := inp.sem1
                    sem2 := inp.sem2
                    sem3 := inp.sem3
                    sem4 := inp.sem4
                    sem5 := inp.sem5
                    sem6 := inp.sem6
                    sem7 := inp.sem7
                    sem8 := inp.sem8 }
                else s) }
          commitWithRefresh db1 st.user_email

/-- Embedding of the `staff_student_portal` `skill_add` branch
(app.py:674-684): the staff member adds a skill on behalf of the student
with internal id `sid`; levels are clamped to [0, 10] and an empty name is
rejected. An unknown id yields a 404 and commits nothing. -/
def staff_skill_add (db : DB) (sid : ℤ) (skill_name : String)
    (levels_completed : ℤ) : List DB × Option String :=
  match db.students.find? (fun s => s.id == sid) with
  | none => ([], none)
  | some st =>
      if skill_name = "" then ([], some "Skill name required")
      else
        let db1 : DB :=
          { db with
            skills := db.skills ++
              [{ id := freshSkillId db
                 student_email := st.user_email
                 skill_name := skill_name
                 levels_completed := max 0 (min 10 levels_completed) }] }
        commitWithRefresh db1 st.user_email

/-- Embedding of the `staff_student_portal` `skill_delete` branch
(app.py:686-692): the staff member deletes a skill by id, scoped to the
email of the student with internal id `sid`. An unknown id yields a 404
and commits nothing. -/
def staff_skill_delete (db : DB) (sid : ℤ) (skill_id : ℤ) : List DB × Option String :=
  match db.students.find? (fun s => s.id == sid) with
  | none => ([], none)
  | some st =>
      let db1 : DB := { db with skills := deleteSkillRows db.skills skill_id st.user_email }
      commitWithRefresh db1 st.user_email

/-- The residency invariant on one student row (spec §3): a Hosteller has a
warden and room recorded; a Day Scholar has both forced empty. -/
def residencyOK (s : StudentRow) : Prop :=
  (s.scholar_type = "Hosteller" → s.warden_name ≠ "" ∧ s.room_no ≠ "") ∧
  (s.scholar_type = "Day Scholar" → s.warden_name = "" ∧ s.room_no = "")

instance (s : StudentRow) : Decidable (residencyOK s) := by
  unfold residencyOK; infer_instance

/-- The residency invariant over the whole students table. -/
def dbResidencyOK (db : DB) : Prop := ∀ s ∈ db.students, residencyOK s

instance (db : DB) : Decidable (dbResidencyOK db) := by
  unfold dbResidencyOK; infer_instance

/-- Whether a student-portal form is one of the mutations after which the
spec requires a score recompute (everything except the profile form, which
touches none of academics/skills/achievements/certifications). -/
def PortalForm.touchesScore : PortalForm → Bool
  | .profile .. => false
  | _ => true

/-- The commit pattern the amended C3 claim asserts of every score-relevant
mutation: exactly two commits — the mutated state first, then, in a second
separate transaction, the same state with the freshly recomputed score —
and the final committed state stores a score consistent with its data. -/
def goodTrace (res : List DB × Option String) (e : String) : Prop :=
  res.1.length = 2 ∧
  res.1.getLast? = (res.1.head?).map (fun d => refreshDB d e) ∧
  (res.1.getLast?.all (fun d => scoreMatches d e)) = true

/-- Login email used by the concrete witness databases below. -/
def wEmail : String := "alice.student@gmail.com"

/-- A well-formed student row used by the concrete witnesses. -/
def baseRow : StudentRow :=
  { id := 1
    user_email := wEmail
    student_id := "S1"
    roll := "R1"
    name := "Alice"
    contact_email := "alice@example.com"
    phone := "9999999999"
    parent_phone := "8888888888"
    address := "1 College Road"
    department := "CSE"
    mentor_name := "Mentor"
    scholar_type := "Day Scholar"
    warden_name := ""
    room_no := ""
    tenth := "90"
    twelfth := "91"
    semester_start := "2026-01-01"
    present_days := 0
    arrear_count := 0
    sem1 := none
    sem2 := none
    sem3 := none
    sem4 := none
    sem5 := none
    sem6 := none
    sem7 := none
    sem8 := none
    placement_score := 0 }

/-- Witness row for the arrears boundary of C1: five arrears, nothing else. -/
def c1Row : StudentRow := { baseRow with arrear_count := 5 }

/-- Witness database for C1: no skills, achievements or certifications. -/
def c1DB : DB :=
  { users := [wEmail], students := [c1Row], skills := [],
    achievements := [], certifications := [] }

/-- The student row of the end-to-end scenario of C2: sem1 = 8.0,
sem2 = 9.0, one arrear. -/
def c2Row : StudentRow := { baseRow with sem1 := some 8, sem2 := some 9, arrear_count := 1 }

/-- The database of the end-to-end scenario of C2: two skills at level 5,
one achievement, no certifications. -/
def c2DB : DB :=
  { users := [wEmail]
    students := [c2Row]
    skills :=
      [{ id := 1, student_email := wEmail, skill_name := "Python", levels_completed := 5 },
       { id := 2, student_email := wEmail, skill_name := "SQL", levels_completed := 5 }]
    achievements :=
      [{ id := 1, student_email := wEmail, title := "Hackathon Winner",
         level := "College", date_str := "2026-01-10", description := "won" }]
    certifications := [] }

/-- Concrete database used to exhibit the separate-commit behaviour of the
mutation handlers (C3): one student with stored score 0 and no skills. -/
def c3DB : DB :=
  { users := [wEmail], students := [baseRow], skills := [],
    achievements := [], certifications := [] }

/-- The first committed state of the C3 scenario: the skill insert has been
committed while the stored placement score is still the old 0. -/
def c3DB1 : DB :=
  { c3DB with
    skills := [{ id := 1, student_email := wEmail, skill_name := "py",
                 levels_completed := 10 }] }

/-- The second committed state of the C3 scenario: the separate commit
performed by `refresh_score`, storing the recomputed score 3. -/
def c3DB2 : DB := { c3DB1 with students := [{ baseRow with placement_score := 3 }] }

/-- Witness row for C10: its `semester_start` is not a date. -/
def c10Row : StudentRow := { baseRow with semester_start := "garbage" }

/-- Witness skills table for C9: one row owned by a different student. -/
def c9Tbl : List SkillRow :=
  [{ id := 1, student_email := "bob.student@gmail.com", skill_name := "Python",
     levels_completed := 5 }]

theorem hre_intCast (n : ℤ) : hre (n : ℚ) = n := by
  simp [hre]

theorem floor_le_hre (x : ℚ) : ⌊x⌋ ≤ hre x := by
  unfold hre
  split
  · exact le_refl _
  · split
    · omega
    · split <;> omega

theorem hre_le_of_le {x : ℚ} {n : ℤ} (h : x ≤ (n : ℚ)) : hre x ≤ n := by
  have hfl : ⌊x⌋ ≤ n := by
    have := Int.floor_le_floor h
    simpa using this
  unfold hre
  split
  · exact hfl
  · rename_i h1
    push_neg at h1
    have hx2 : (⌊x⌋ : ℚ) + 1/2 ≤ x := by
      have := Int.floor_le x
      linarith
    have hlt : (⌊x⌋ : ℚ) < (n : ℚ) := by linarith
    have : ⌊x⌋ < n := by exact_mod_cast hlt
    split
    · omega
    · split <;> omega

theorem le_hre_of_le {n : ℤ} {x : ℚ} (h : (n : ℚ) ≤ x) : n ≤ hre x := by
  have : n ≤ ⌊x⌋ := Int.le_floor.mpr h
  exact le_trans this (floor_le_hre x)

theorem round2_nonneg {x : ℚ} (h : 0 ≤ x) : 0 ≤ round2 x := by
  unfold round2
  have h1 : (0 : ℤ) ≤ hre (x * 100) := by
    apply le_hre_of_le
    push_cast
    linarith
  have h2 : (0 : ℚ) ≤ (hre (x * 100) : ℚ) := by exact_mod_cast h1
  linarith

theorem round2_le_hundred {x : ℚ} (h : x ≤ 100) : round2 x ≤ 100 := by
  unfold round2
  have h1 : hre (x * 100) ≤ (10000 : ℤ) := by
    apply hre_le_of_le
    push_cast
    linarith
  have h2 : (hre (x * 100) : ℚ) ≤ 10000 := by exact_mod_cast h1
  linarith

theorem hundred_le_round2 {x : ℚ} (h : (100 : ℚ) ≤ x) : (100 : ℚ) ≤ round2 x := by
  unfold round2
  have h1 : (10000 : ℤ) ≤ hre (x * 100) := by
    apply le_hre_of_le
    push_cast
    linarith
  have h2 : (10000 : ℚ) ≤ (hre (x * 100) : ℚ) := by exact_mod_cast h1
  linarith

theorem card_filter_range_countP (q : ℕ → Prop) [DecidablePred q] (n : ℕ) :
    ((Finset.range n).filter q).card = (List.range n).countP (fun i => decide (q i)) := by
  induction n with
  | zero => simp
  | succ n ih =>
      rw [Finset.range_succ, List.range_succ, Finset.filter_insert, List.countP_append]
      by_cases h : q n
      · simp [h, Finset.card_insert_of_not_mem, ih]
      · simp [h, ih]

theorem Icc_eq_image_range (s e : ℕ) :
    Finset.Icc s e = (Finset.range (e + 1 - s)).image (fun i => s + i) := by
  ext x
  simp only [Finset.mem_Icc, Finset.mem_image, Finset.mem_range]
  constructor
  · rintro ⟨h1, h2⟩
    exact ⟨x - s, by omega, by omega⟩
  · rintro ⟨i, hi, rfl⟩
    omega

/-- C5: `college_working_days` returns 0 on an empty range; on a non-empty
range it counts exactly the days of the inclusive range whose day-of-week
index is not 6 (Sunday); and on a single day it returns 1 unless that day is
a Sunday. -/
theorem C5_college_working_days (s e d : ℕ) :
    (e < s → college_working_days s e = 0) ∧
    (s ≤ e → college_working_days s e = workingDaysSpec s e) ∧
    college_working_days d d = (if weekday d = 6 then 0 else 1) := by
  refine ⟨fun h => by simp [college_working_days, h], fun h => ?_, ?_⟩
  · rw [college_working_days, if_neg (by omega)]
    rw [workingDaysSpec, Icc_eq_image_range, Finset.filter_image,
      Finset.card_image_of_injective _ (fun a b hab => by omega),
      card_filter_range_countP]
  · have h1 : List.range (d + 1 - d) = [0] := by
      have : d + 1 - d = 1 := by omega
      rw [this]
      rfl
    rw [college_working_days, if_neg (by omega), h1]
    by_cases h : weekday d = 6 <;>
      simp [List.countP_cons, h]

/-- Closed witness for `C5_college_working_days`. -/
theorem C5_college_working_days_witness :
    college_working_days 3 2 = 0 ∧
    college_working_days 1 7 = workingDaysSpec 1 7 ∧
    college_working_days 7 7 = (if weekday 7 = 6 then 0 else 1) :=
  ⟨(C5_college_working_days 3 2 0).1 (by decide),
   (C5_college_working_days 1 7 0).2.1 (by decide),
   (C5_college_working_days 0 0 7).2.2⟩

theorem round2_hundred : round2 100 = 100 := by
  unfold round2
  rw [show ((100 : ℚ) * 100) = ((10000 : ℤ) : ℚ) by norm_num, hre_intCast]
  norm_num

theorem clamp_round2_comm (x : ℚ) (hx : 0 ≤ x) :
    max 0 (min 100 (round2 x)) = round2 (max 0 (min 100 x)) := by
  rcases le_or_lt x 100 with h | h
  · rw [min_eq_right h, max_eq_right hx,
      min_eq_right (round2_le_hundred h), max_eq_right (round2_nonneg hx)]
  · have h100 : (100 : ℚ) ≤ round2 x := hundred_le_round2 h.le
    rw [min_eq_left h.le, min_eq_left h100,
      max_eq_right (by norm_num : (0 : ℚ) ≤ 100), round2_hundred]

theorem attendanceFrom_spec (start today : ℕ) (p : ℤ) (hp : 0 ≤ p) :
    (attendanceFrom start today p).2.1 = p ∧
    ((attendanceFrom start today p).1 = 0 → (attendanceFrom start today p).2.2 = 0) ∧
    (0 < (attendanceFrom start today p).1 →
      (attendanceFrom start today p).2.2 =
        round2 (max 0 (min 100
          ((p : ℚ) / ((attendanceFrom start today p).1 : ℚ) * 100)))) ∧
    0 ≤ (attendanceFrom start today p).2.2 ∧ (attendanceFrom start today p).2.2 ≤ 100 := by
  refine ⟨rfl, fun ht => ?_, fun ht => ?_, ?_, ?_⟩
  · show max 0 (min 100 _) = 0
    rw [if_pos (by simpa [attendanceFrom] using ht : college_working_days start today ≤ 0)]
    norm_num
  · have ht' : 0 < college_working_days start today := by simpa [attendanceFrom] using ht
    show max 0 (min 100 _) = _
    rw [if_neg (by omega : ¬ college_working_days start today ≤ 0), if_pos ht']
    have hval : (0 : ℚ) ≤ (p : ℚ) / ((college_working_days start today : ℕ) : ℚ) * 100 := by
      have h1 : (0 : ℚ) ≤ (p : ℚ) := by exact_mod_cast hp
      have h2 : (0 : ℚ) ≤ ((college_working_days start today : ℕ) : ℚ) := by positivity
      positivity
    exact clamp_round2_comm _ hval
  · exact le_max_left _ _
  · exact max_le (by norm_num) (min_le_left _ _)

/-- C6: for a student row with non-negative `present_days`, `calc_attendance`
returns the stored present count, a percentage of 0 when the working-day
total is 0, and otherwise `clamp(present/total*100, 0, 100)` rounded to two
decimals; the percentage is always within [0, 100]. -/
theorem C6_calc_attendance (r : StudentRow) (today : ℕ) (hp : 0 ≤ r.present_days) :
    (calc_attendance r today).2.1 = r.present_days ∧
    ((calc_attendance r today).1 = 0 → (calc_attendance r today).2.2 = 0) ∧
    (0 < (calc_attendance r today).1 →
      (calc_attendance r today).2.2 =
        round2 (max 0 (min 100
          ((r.present_days : ℚ) / ((calc_attendance r today).1 : ℚ) * 100)))) ∧
    0 ≤ (calc_attendance r today).2.2 ∧ (calc_attendance r today).2.2 ≤ 100 := by
  unfold calc_attendance
  exact attendanceFrom_spec _ _ _ hp

/-- Closed witness for `C6_calc_attendance` (today = ordinal of 2026-01-05). -/
theorem C6_calc_attendance_witness :
    0 ≤ (calc_attendance baseRow 739621).2.2 ∧ (calc_attendance baseRow 739621).2.2 ≤ 100 :=
  (C6_calc_attendance baseRow 739621 (by decide)).2.2.2

/-- C10: `calc_attendance` is total even on a row whose `semester_start` does
not parse: it silently substitutes today's date for the start date and
returns the triple computed from it. -/
theorem C10_calc_attendance_bad_date (r : StudentRow) (today : ℕ)
    (h : parse_ymd r.semester_start = none) :
    calc_attendance r today = attendanceFrom today today r.present_days := by
  unfold calc_attendance resolveStart
  rw [h]

/-- Closed witness for `C10_calc_attendance_bad_date`: a row whose stored
start date is the non-date string "garbage". -/
theorem C10_calc_attendance_bad_date_witness :
    calc_attendance c10Row 739621 = attendanceFrom 739621 739621 c10Row.present_days :=
  C10_calc_attendance_bad_date c10Row 739621 (by decide)

theorem calc_placement_score_eq (db : DB) (e : String) (row : StudentRow) :
    calc_placement_score db e row =
      round2 (max 0 (min 100
        ((calc_cgpa row).getD 0 / 10 * 50 +
         min 30 ((skillTotal db e : ℚ) / 100 * 30) +
         min 10 ((achCount db e : ℚ) * (5/2)) +
         min 10 ((certCount db e : ℚ) * 2) -
         min 40 (((max 0 row.arrear_count : ℤ) : ℚ) * 10)))) := rfl

/-- C1: the placement score is always within [0, 100]; in particular, when
the student has at least five arrears and every positive component is zero
(no skills, achievements, certifications, and no semester scores), the
penalty drives the raw sum negative and the stored score is exactly 0. -/
theorem C1_placement_score_bounds (db : DB) (e : String) (row : StudentRow) :
    0 ≤ calc_placement_score db e row ∧ calc_placement_score db e row ≤ 100 ∧
    (5 ≤ row.arrear_count → skillTotal db e = 0 → achCount db e = 0 →
      certCount db e = 0 → calc_cgpa row = none →
      calc_placement_score db e row = 0) := by
  refine ⟨?_, ?_, fun ha hs hac hce hcg => ?_⟩
  · rw [calc_placement_score_eq]
    exact round2_nonneg (le_max_left _ _)
  · rw [calc_placement_score_eq]
    exact round2_le_hundred (max_le (by norm_num) (min_le_left _ _))
  · rw [calc_placement_score_eq, hcg, hs, hac, hce,
      max_eq_right (by omega : (0 : ℤ) ≤ row.arrear_count)]
    have hpen : min (40 : ℚ) ((row.arrear_count : ℚ) * 10) = 40 := by
      apply min_eq_left
      have h5 : (5 : ℚ) ≤ (row.arrear_count : ℚ) := by exact_mod_cast ha
      linarith
    rw [hpen]
    norm_num [round2, hre]

/-- Closed witness for `C1_placement_score_bounds`: five arrears and nothing
else clamp the score to exactly 0. -/
theorem C1_placement_score_bounds_witness :
    calc_placement_score c1DB wEmail c1Row = 0 :=
  (C1_placement_score_bounds c1DB wEmail c1Row).2.2
    (by decide) (by decide) (by decide) (by decide) (by decide)

/-- C2: the end-to-end scoring scenario: sem1 = 8.0 and sem2 = 9.0 give
cgpa 8.50 and cgpaPart 42.50, two skills at level 5 give skillPart 3.00, one
achievement gives achPart 2.50, no certifications give certPart 0, one
arrear gives penalty 10.00, and the resulting score is exactly 38.00. -/
theorem C2_end_to_end_score : calc_placement_score c2DB wEmail c2Row = 38 := by
  have h1 : (semList c2Row).filterMap id = [(8 : ℚ), 9] := rfl
  have h2 : calc_cgpa c2Row = some (round2 ((17 : ℚ) / 2)) := by
    unfold calc_cgpa
    simp only [h1]
    norm_num
  have h3 : round2 ((17 : ℚ) / 2) = 17/2 := by norm_num [round2, hre]
  have hcg : calc_cgpa c2Row = some (17/2) := by rw [h2, h3]
  have hsk : skillTotal c2DB wEmail = 10 := by decide
  have hac : achCount c2DB wEmail = 1 := by decide
  have hce : certCount c2DB wEmail = 0 := by decide
  have har : c2Row.arrear_count = 1 := rfl
  rw [calc_placement_score_eq, hcg, hsk, hac, hce, har]
  norm_num [round2, hre, min_def, max_def]

theorem setScoreFun_user_email (e : String) (v : ℚ) (s : StudentRow) :
    (setScoreFun e v s).user_email = s.user_email := by
  unfold setScoreFun
  split <;> rfl

theorem find?_map_setScoreFun (l : List StudentRow) (e : String) (v : ℚ) :
    (l.map (setScoreFun e v)).find? (fun s => s.user_email == e) =
      (l.find? (fun s => s.user_email == e)).map (setScoreFun e v) := by
  induction l with
  | nil => rfl
  | cons a l ih =>
      simp only [List.map_cons]
      have he : ((setScoreFun e v a).user_email == e) = (a.user_email == e) := by
        rw [setScoreFun_user_email]
      cases h : (a.user_email == e) with
      | false =>
          have h2 : ((setScoreFun e v a).user_email == e) = false := by rw [he, h]
          rw [List.find?_cons_of_neg (p := fun s : StudentRow => s.user_email == e) _ (by simp [h2]),
            List.find?_cons_of_neg (p := fun s : StudentRow => s.user_email == e) _ (by simp [h]), ih]
      | true =>
          have h2 : ((setScoreFun e v a).user_email == e) = true := by rw [he, h]
          rw [List.find?_cons_of_pos (p := fun s : StudentRow => s.user_email == e) _ h2,
            List.find?_cons_of_pos (p := fun s : StudentRow => s.user_email == e) _ h]
          rfl

theorem findStudent_setScore (db : DB) (e : String) (r : StudentRow)
    (h : findStudent db e = some r) (v : ℚ) :
    findStudent { db with students := db.students.map (setScoreFun e v) } e =
      some { r with placement_score := v } := by
  unfold findStudent at h
  have hp : (r.user_email == e) = true := by
    have := List.find?_some h
    simpa using this
  show (db.students.map (setScoreFun e v)).find? (fun s => s.user_email == e) = _
  rw [find?_map_setScoreFun, h, Option.map_some']
  unfold setScoreFun
  rw [if_pos hp]

theorem calc_agree (db db' : DB) (e : String) (r r' : StudentRow)
    (hsk : db'.skills = db.skills) (hac : db'.achievements = db.achievements)
    (hce : db'.certifications = db.certifications)
    (hsem : semList r' = semList r) (har : r'.arrear_count = r.arrear_count) :
    calc_placement_score db' e r' = calc_placement_score db e r := by
  rw [calc_placement_score_eq, calc_placement_score_eq]
  unfold skillTotal achCount certCount calc_cgpa
  rw [hsk, hac, hce, hsem, har]

theorem refreshDB_skills (db : DB) (e : String) : (refreshDB db e).skills = db.skills := by
  unfold refreshDB
  split <;> rfl

theorem refreshDB_achievements (db : DB) (e : String) :
    (refreshDB db e).achievements = db.achievements := by
  unfold refreshDB
  split <;> rfl

theorem refreshDB_certifications (db : DB) (e : String) :
    (refreshDB db e).certifications = db.certifications := by
  unfold refreshDB
  split <;> rfl

theorem refreshDB_found (db : DB) (e : String) (r : StudentRow)
    (h : findStudent db e = some r) :
    refreshDB db e =
      { db with students := db.students.map (setScoreFun e (calc_placement_score db e r)) } := by
  unfold refreshDB
  rw [h]

/-- C7: the score-recompute step is idempotent: running `refresh_score`
twice in a row for the same student with no intervening mutation produces
the same database state (in particular the same stored placement score) as
running it once; the recomputed score never depends on the previously
stored score. -/
theorem C7_refresh_idempotent (db : DB) (e : String) :
    refreshDB (refreshDB db e) e = refreshDB db e := by
  cases h : findStudent db e with
  | none =>
      have hdb : refreshDB db e = db := by
        unfold refreshDB
        rw [h]
      rw [hdb, hdb]
  | some r =>
      set v := calc_placement_score db e r with hv
      have h1 : refreshDB db e = { db with students := db.students.map (setScoreFun e v) } :=
        refreshDB_found db e r h
      have h2 : findStudent (refreshDB db e) e = some { r with placement_score := v } := by
        rw [h1]
        exact findStudent_setScore db e r h v
      have h3 : calc_placement_score (refreshDB db e) e { r with placement_score := v } = v := by
        rw [hv]
        exact calc_agree db (refreshDB db e) e r { r with placement_score := v }
          (refreshDB_skills db e) (refreshDB_achievements db e)
          (refreshDB_certifications db e) rfl rfl
      have h4 := refreshDB_found (refreshDB db e) e { r with placement_score := v } h2
      rw [h3] at h4
      rw [h4, h1]
      congr 1
      rw [List.map_map]
      apply List.map_congr_left
      intro a _
      show setScoreFun e v (setScoreFun e v a) = setScoreFun e v a
      unfold setScoreFun
      by_cases hae : (a.user_email == e) = true
      · simp [hae]
      · simp [hae]

/-- C9: the owner-scoped skill delete (`DELETE FROM skills WHERE id=? AND
student_email=?`, used by both portals) removes only rows matching both the
id and the owner email: when no row matches both, the table is unchanged,
rows of other students always survive, and any removed row did match both.
Moreover the student portal's `skill_delete` branch commits exactly this
table operation. -/
theorem C9_skill_delete_scoped (tbl : List SkillRow) (i : ℤ) (e : String) :
    ((∀ r ∈ tbl, ¬(r.id = i ∧ r.student_email = e)) → deleteSkillRows tbl i e = tbl) ∧
    (∀ r ∈ tbl, r.student_email ≠ e → r ∈ deleteSkillRows tbl i e) ∧
    (∀ r ∈ tbl, r ∉ deleteSkillRows tbl i e → r.id = i ∧ r.student_email = e) ∧
    (∀ (db : DB) (st : StudentRow), findStudent db e = some st →
      (student_portal db e (.skill_delete i)).1.head? =
        some { db with skills := deleteSkillRows db.skills i e }) := by
  refine ⟨fun h => ?_, fun r hr hne => ?_, fun r hr hnot => ?_, fun db st hst => ?_⟩
  · unfold deleteSkillRows
    apply List.filter_eq_self.mpr
    intro a ha
    have ha2 := h a ha
    simp only [not_and] at ha2
    by_cases h1 : a.id = i
    · simp [h1, ha2 h1]
    · simp [h1]
  · unfold deleteSkillRows
    exact List.mem_filter.mpr ⟨hr, by simp [hne]⟩
  · by_contra hcon
    refine hnot (List.mem_filter.mpr ⟨hr, ?_⟩)
    simp only [not_and] at hcon
    by_cases h1 : r.id = i
    · simp [h1, hcon h1]
    · simp [h1]
  · unfold student_portal
    rw [hst]
    rfl

/-- Closed witness for `C9_skill_delete_scoped`: deleting skill id 1 on
behalf of a student who does not own it leaves the table unchanged. -/
theorem C9_skill_delete_scoped_witness : deleteSkillRows c9Tbl 1 wEmail = c9Tbl :=
  (C9_skill_delete_scoped c9Tbl 1 wEmail).1 (by decide)

theorem c3_score_value : calc_placement_score c3DB1 wEmail baseRow = 3 := by
  have hcg : calc_cgpa baseRow = none := by decide
  have hsk : skillTotal c3DB1 wEmail = 10 := by decide
  have hac : achCount c3DB1 wEmail = 0 := by decide
  have hce : certCount c3DB1 wEmail = 0 := by decide
  have har : baseRow.arrear_count = 0 := rfl
  rw [calc_placement_score_eq, hcg, hsk, hac, hce, har]
  norm_num [round2, hre, min_def, max_def]

theorem c3_find_db : findStudent c3DB wEmail = some baseRow := by decide

theorem c3_find_db1 : findStudent c3DB1 wEmail = some baseRow := by decide

theorem c3_refresh_db1 : refreshDB c3DB1 wEmail = c3DB2 := by
  rw [refreshDB_found c3DB1 wEmail baseRow c3_find_db1, c3_score_value]
  decide

/-- C3, counterexample: adding a skill through the student portal commits
TWICE: the first committed state `c3DB1` already contains the inserted skill
row but still stores the old placement score (0, while a recompute on that
state yields 3), and only a second, separate commit `c3DB2` stores the new
score. Hence the score write-back does not happen within the same logical
transaction as the triggering mutation, and a committed state with a stale
stored score is observable. -/
theorem cons_refresh_congr (d1 d2 : DB) (e : String) (h : d1 = d2) :
    d1 :: refreshCommits d1 e = d2 :: refreshCommits d2 e := by rw [h]

theorem C3_counterexample :
    (student_portal c3DB wEmail (.skill_add "py" 10)).1 = [c3DB1, c3DB2] ∧
    scoreMatches c3DB1 wEmail = false ∧
    scoreMatches c3DB2 wEmail = true := by
  refine ⟨?_, ?_, ?_⟩
  · have h3 : refreshCommits c3DB1 wEmail = [c3DB2] := by
      unfold refreshCommits
      rw [c3_find_db1, c3_refresh_db1]
    simp only [student_portal, c3_find_db]
    rw [if_neg (show ¬ ("py" = "") by decide)]
    exact (cons_refresh_congr _ c3DB1 wEmail (by decide)).trans (by rw [h3])
  · unfold scoreMatches
    rw [c3_find_db1]
    show decide (baseRow.placement_score = calc_placement_score c3DB1 wEmail baseRow) = false
    rw [c3_score_value]
    decide
  · have hf2 : findStudent c3DB2 wEmail = some { baseRow with placement_score := 3 } := by
      decide
    have hca : calc_placement_score c3DB2 wEmail { baseRow with placement_score := 3 } = 3 := by
      rw [← c3_score_value]
      exact calc_agree c3DB1 c3DB2 wEmail baseRow { baseRow with placement_score := 3 }
        rfl rfl rfl rfl rfl
    unfold scoreMatches
    rw [hf2]
    show decide (({ baseRow with placement_score := 3 } : StudentRow).placement_score =
      calc_placement_score c3DB2 wEmail { baseRow with placement_score := 3 }) = true
    rw [hca]
    decide

theorem find?_map_email_preserving (l : List StudentRow) (e : String)
    (g : StudentRow → StudentRow) (hg : ∀ s, (g s).user_email = s.user_email) :
    (l.map g).find? (fun s => s.user_email == e) =
      (l.find? (fun s => s.user_email == e)).map g := by
  induction l with
  | nil => rfl
  | cons a l ih =>
      simp only [List.map_cons]
      have he : ((g a).user_email == e) = (a.user_email == e) := by rw [hg]
      cases h : (a.user_email == e) with
      | false =>
          have h2 : ((g a).user_email == e) = false := by rw [he, h]
          rw [List.find?_cons_of_neg (p := fun s : StudentRow => s.user_email == e) _ (by simp [h2]),
            List.find?_cons_of_neg (p := fun s : StudentRow => s.user_email == e) _ (by simp [h]), ih]
      | true =>
          have h2 : ((g a).user_email == e) = true := by rw [he, h]
          rw [List.find?_cons_of_pos (p := fun s : StudentRow => s.user_email == e) _ h2,
            List.find?_cons_of_pos (p := fun s : StudentRow => s.user_email == e) _ h]
          rfl

theorem findStudent_updateStudents (db : DB) (e : String) (g : StudentRow → StudentRow)
    (hg : ∀ s, (g s).user_email = s.user_email) :
    findStudent (updateStudents db e g) e =
      (findStudent db e).map (fun s => if s.user_email == e then g s else s) := by
  unfold findStudent updateStudents
  exact find?_map_email_preserving db.students e
    (fun s => if s.user_email == e then g s else s)
    (fun s => by by_cases h : (s.user_email == e) = true <;> simp [h, hg])

theorem refreshCommits_found (db : DB) (e : String) (r : StudentRow)
    (h : findStudent db e = some r) : refreshCommits db e = [refreshDB db e] := by
  unfold refreshCommits
  rw [h]

theorem scoreMatches_refreshDB (db : DB) (e : String) :
    scoreMatches (refreshDB db e) e = true := by
  cases h : findStudent db e with
  | none =>
      have hid : refreshDB db e = db := by
        unfold refreshDB
        rw [h]
      rw [hid]
      unfold scoreMatches
      rw [h]
  | some r =>
      set v := calc_placement_score db e r with hv
      have h1 : refreshDB db e = { db with students := db.students.map (setScoreFun e v) } :=
        refreshDB_found db e r h
      have h2 : findStudent (refreshDB db e) e = some { r with placement_score := v } := by
        rw [h1]
        exact findStudent_setScore db e r h v
      have h3 : calc_placement_score (refreshDB db e) e { r with placement_score := v } = v := by
        rw [hv]
        exact calc_agree db (refreshDB db e) e r { r with placement_score := v }
          (refreshDB_skills db e) (refreshDB_achievements db e)
          (refreshDB_certifications db e) rfl rfl
      unfold scoreMatches
      rw [h2]
      show decide (({ r with placement_score := v } : StudentRow).placement_score =
        calc_placement_score (refreshDB db e) e { r with placement_score := v }) = true
      rw [h3]
      simp

theorem commitWithRefresh_spec (db1 : DB) (e : String) (hfound : findStudent db1 e ≠ none) :
    goodTrace (commitWithRefresh db1 e) e := by
  cases h : findStudent db1 e with
  | none => exact absurd h hfound
  | some r =>
      unfold goodTrace commitWithRefresh
      rw [refreshCommits_found db1 e r h]
      refine ⟨rfl, rfl, ?_⟩
      show scoreMatches (refreshDB db1 e) e = true
      exact scoreMatches_refreshDB db1 e

theorem findStudent_ne_none_of_mem (db : DB) (st : StudentRow) (hmem : st ∈ db.students) :
    findStudent db st.user_email ≠ none := by
  unfold findStudent
  intro hcon
  rw [List.find?_eq_none] at hcon
  exact hcon st hmem (by simp)

theorem findStudent_map_students (db : DB) (e : String) (g : StudentRow → StudentRow)
    (hg : ∀ s, (g s).user_email = s.user_email)
    (h : findStudent db e ≠ none) :
    findStudent { db with students := db.students.map g } e ≠ none := by
  unfold findStudent at h ⊢
  rw [find?_map_email_preserving db.students e g hg]
  intro hcon
  cases hf : db.students.find? (fun s => s.user_email == e) with
  | none => exact h hf
  | some r =>
      rw [hf] at hcon
      exact Option.noConfusion hcon

/-- C3, amended: after every insert/update/delete that touches a student's
academics, skills, achievements or certifications (every student-portal form
except `profile`, student registration, and the staff-side mutations: the
staff `edit` form and the staff `skill_add`/`skill_delete` forms), the score
recompute step runs and the final committed state stores the freshly
recomputed placement score — but the triggering mutation is committed first,
on its own, and the score is written by a second, separate commit (never
within the same transaction as the mutation). -/
theorem C3_commit_pattern :
    (∀ (db : DB) (e : String) (f : PortalForm), f.touchesScore = true →
      (student_portal db e f).1 ≠ [] → goodTrace (student_portal db e f) e) ∧
    (∀ (db : DB) (inp : RegInput), (register_student db inp).1 ≠ [] →
      goodTrace (register_student db inp) inp.login_email) ∧
    (∀ (db : DB) (sid : ℤ) (inp : StaffEditInput) (st : StudentRow),
      db.students.find? (fun s => s.id == sid) = some st →
      (staff_student_edit db sid inp).1 ≠ [] →
      goodTrace (staff_student_edit db sid inp) st.user_email) ∧
    (∀ (db : DB) (sid : ℤ) (nm : String) (lv : ℤ) (st : StudentRow),
      db.students.find? (fun s => s.id == sid) = some st →
      (staff_skill_add db sid nm lv).1 ≠ [] →
      goodTrace (staff_skill_add db sid nm lv) st.user_email) ∧
    (∀ (db : DB) (sid : ℤ) (i : ℤ) (st : StudentRow),
      db.students.find? (fun s => s.id == sid) = some st →
      (staff_skill_delete db sid i).1 ≠ [] →
      goodTrace (staff_skill_delete db sid i) st.user_email) := by
  refine ⟨?_, ?_, ?_, ?_, ?_⟩
  · intro db e f hf hne
    cases hfind : findStudent db e with
    | none =>
        exfalso
        apply hne
        show (student_portal db e f).1 = []
        unfold student_portal
        rw [hfind]
    | some st =>
        cases f with
        | profile n c p pp ad dp mn sc wn rn =>
            simp [PortalForm.touchesScore] at hf
        | academics ss pd ac s1 s2 s3 s4 s5 s6 s7 s8 =>
            by_cases hp : (parse_ymd ss).isNone = true
            · exfalso
              apply hne
              show (student_portal db e (.academics ss pd ac s1 s2 s3 s4 s5 s6 s7 s8)).1 = []
              simp only [student_portal, hfind]
              rw [if_pos hp]
            · simp only [student_portal, hfind]
              rw [if_neg hp]
              apply commitWithRefresh_spec
              rw [findStudent_updateStudents db e (fun s =>
                { s with
                  semester_start := ss, present_days := max 0 pd, arrear_count := max 0 ac,
                  sem1 := s1, sem2 := s2, sem3 := s3, sem4 := s4, sem5 := s5, sem6 := s6,
                  sem7 := s7, sem8 := s8 }) (fun s => rfl), hfind]
              simp
        | skill_add nm lv =>
            by_cases hn : nm = ""
            · exfalso
              apply hne
              show (student_portal db e (.skill_add nm lv)).1 = []
              simp only [student_portal, hfind]
              rw [if_pos hn]
            · simp only [student_portal, hfind]
              rw [if_neg hn]
              apply commitWithRefresh_spec
              show findStudent db e ≠ none
              rw [hfind]
              simp
        | skill_delete i =>
            simp only [student_portal, hfind]
            apply commitWithRefresh_spec
            show findStudent db e ≠ none
            rw [hfind]
            simp
        | ach_add t l ds dsc =>
            by_cases hn : t = ""
            · exfalso
              apply hne
              show (student_portal db e (.ach_add t l ds dsc)).1 = []
              simp only [student_portal, hfind]
              rw [if_pos hn]
            · simp only [student_portal, hfind]
              rw [if_neg hn]
              apply commitWithRefresh_spec
              show findStudent db e ≠ none
              rw [hfind]
              simp
        | ach_delete i =>
            simp only [student_portal, hfind]
            apply commitWithRefresh_spec
            show findStudent db e ≠ none
            rw [hfind]
            simp
        | cert_add nm pv idt url =>
            by_cases hn : nm = ""
            · exfalso
              apply hne
              show (student_portal db e (.cert_add nm pv idt url)).1 = []
              simp only [student_portal, hfind]
              rw [if_pos hn]
            · simp only [student_portal, hfind]
              rw [if_neg hn]
              apply commitWithRefresh_spec
              show findStudent db e ≠ none
              rw [hfind]
              simp
        | cert_delete i =>
            simp only [student_portal, hfind]
            apply commitWithRefresh_spec
            show findStudent db e ≠ none
            rw [hfind]
            simp
  · intro db inp hne
    by_cases h1 : regMissingRequired inp
    · exfalso
      apply hne
      show (register_student db inp).1 = []
      simp only [register_student]
      rw [if_pos h1]
    by_cases h2 : ¬ validate_email_role inp.login_email "student" = true
    · exfalso
      apply hne
      show (register_student db inp).1 = []
      simp only [register_student]
      rw [if_neg h1, if_pos h2]
    by_cases h3 : (parse_ymd inp.semester_start).isNone = true
    · exfalso
      apply hne
      show (register_student db inp).1 = []
      simp only [register_student]
      rw [if_neg h1, if_neg h2, if_pos h3]
    by_cases h4 : inp.scholar_type = "Hosteller" ∧ (inp.warden_name = "" ∨ inp.room_no = "")
    · exfalso
      apply hne
      show (register_student db inp).1 = []
      simp only [register_student]
      rw [if_neg h1, if_neg h2, if_neg h3, if_pos h4]
    by_cases h5 : inp.login_email ∈ db.users ∨
        db.students.any (fun s => s.user_email == inp.login_email || s.roll == inp.roll) = true
    · exfalso
      apply hne
      show (register_student db inp).1 = []
      simp only [register_student]
      rw [if_neg h1, if_neg h2, if_neg h3, if_neg h4, if_pos h5]
    · simp only [register_student]
      rw [if_neg h1, if_neg h2, if_neg h3, if_neg h4, if_neg h5]
      apply commitWithRefresh_spec
      unfold findStudent
      intro hcon
      have hcon2 : List.find? (fun s => s.user_email == inp.login_email)
          (db.students ++ [regRow db inp]) = none := hcon
      rw [List.find?_append] at hcon2
      have hrow : ∀ (row : StudentRow), row.user_email = inp.login_email →
          List.find? (fun s => s.user_email == inp.login_email) [row] = some row := by
        intro row hrw
        apply List.find?_cons_of_pos
        simp [hrw]
      rw [hrow _ rfl] at hcon2
      cases hferr : List.find? (fun s => s.user_email == inp.login_email) db.students <;>
        simp [hferr, Option.or] at hcon2
  · intro db sid inp st hfid hne
    by_cases h4 : inp.scholar_type = "Hosteller" ∧ (inp.warden_name = "" ∨ inp.room_no = "")
    · exfalso
      apply hne
      show (staff_student_edit db sid inp).1 = []
      simp only [staff_student_edit, hfid]
      rw [if_pos h4]
    by_cases hreq : inp.name = "" ∨ inp.contact_email = "" ∨ inp.phone = "" ∨
        inp.parent_phone = "" ∨ inp.address = "" ∨ inp.department = "" ∨
        inp.mentor_name = "" ∨ inp.semester_start = ""
    · exfalso
      apply hne
      show (staff_student_edit db sid inp).1 = []
      simp only [staff_student_edit, hfid]
      rw [if_neg h4, if_pos hreq]
    by_cases hp : (parse_ymd inp.semester_start).isNone = true
    · exfalso
      apply hne
      show (staff_student_edit db sid inp).1 = []
      simp only [staff_student_edit, hfid]
      rw [if_neg h4, if_neg hreq, if_pos hp]
    · simp only [staff_student_edit, hfid]
      rw [if_neg h4, if_neg hreq, if_neg hp]
      apply commitWithRefresh_spec
      refine findStudent_map_students db st.user_email _ ?_ ?_
      · intro s
        by_cases hb : (s.id == sid) = true
        · rw [if_pos hb]
        · rw [if_neg hb]
      · exact findStudent_ne_none_of_mem db st (List.mem_of_find?_eq_some hfid)
  · intro db sid nm lv st hfid hne
    by_cases hn : nm = ""
    · exfalso
      apply hne
      show (staff_skill_add db sid nm lv).1 = []
      simp only [staff_skill_add, hfid]
      rw [if_pos hn]
    · simp only [staff_skill_add, hfid]
      rw [if_neg hn]
      apply commitWithRefresh_spec
      show findStudent db st.user_email ≠ none
      exact findStudent_ne_none_of_mem db st (List.mem_of_find?_eq_some hfid)
  · intro db sid i st hfid hne
    simp only [staff_skill_delete, hfid]
    apply commitWithRefresh_spec
    show findStudent db st.user_email ≠ none
    exact findStudent_ne_none_of_mem db st (List.mem_of_find?_eq_some hfid)

/-- Closed witness for `C3_commit_pattern`: the skill-add scenario of the
counterexample database commits exactly twice. -/
theorem C3_commit_pattern_witness :
    goodTrace (student_portal c3DB wEmail (.skill_add "py" 10)) wEmail :=
  C3_commit_pattern.1 c3DB wEmail (.skill_add "py" 10) rfl
    (by
      simp only [student_portal, c3_find_db]
      rw [if_neg (show ¬ ("py" = "") by decide)]
      exact List.cons_ne_nil _ _)

theorem residencyOK_fields_eq (s t : StudentRow) (h1 : t.scholar_type = s.scholar_type)
    (h2 : t.warden_name = s.warden_name) (h3 : t.room_no = s.room_no)
    (h : residencyOK s) : residencyOK t := by
  unfold residencyOK at h ⊢
  rw [h1, h2, h3]
  exact h

theorem residencyOK_write (sc wn rn : String)
    (h4 : ¬(sc = "Hosteller" ∧ (wn = "" ∨ rn = ""))) (t : StudentRow)
    (hsc : t.scholar_type = sc)
    (hwn : t.warden_name = (if sc = "Hosteller" then wn else ""))
    (hrn : t.room_no = (if sc = "Hosteller" then rn else "")) :
    residencyOK t := by
  rw [not_and] at h4
  constructor
  · intro hH
    rw [hsc] at hH
    have h5 := h4 hH
    rw [not_or] at h5
    rw [hwn, hrn, if_pos hH, if_pos hH]
    exact h5
  · intro hD
    have hsc2 : sc = "Day Scholar" := hsc.symm.trans hD
    have hne : ¬ (sc = "Hosteller") := by
      rw [hsc2]
      decide
    rw [hwn, hrn, if_neg hne, if_neg hne]
    exact ⟨rfl, rfl⟩

theorem dbResidencyOK_refreshDB (db : DB) (e : String) (h : dbResidencyOK db) :
    dbResidencyOK (refreshDB db e) := by
  unfold refreshDB
  cases hf : findStudent db e with
  | none => exact h
  | some r =>
      intro s hs
      have hs2 : s ∈ db.students.map (setScoreFun e (calc_placement_score db e r)) := hs
      rw [List.mem_map] at hs2
      obtain ⟨s0, hs0, rfl⟩ := hs2
      refine residencyOK_fields_eq s0 _ ?_ ?_ ?_ (h s0 hs0) <;>
        (unfold setScoreFun; split <;> rfl)

theorem dbResidencyOK_refreshCommits (db : DB) (e : String) (h : dbResidencyOK db) :
    ∀ d ∈ refreshCommits db e, dbResidencyOK d := by
  unfold refreshCommits
  cases hf : findStudent db e with
  | none =>
      intro d hd
      exact absurd hd (List.not_mem_nil d)
  | some r =>
      intro d hd
      have hd2 : d = refreshDB db e := by simpa using hd
      rw [hd2]
      exact dbResidencyOK_refreshDB db e h

theorem dbResidencyOK_commitWithRefresh (db1 : DB) (e : String) (h1 : dbResidencyOK db1) :
    ∀ d ∈ (commitWithRefresh db1 e).1, dbResidencyOK d := by
  intro d hd
  have hd2 : d = db1 ∨ d ∈ refreshCommits db1 e := by
    have hd' : d ∈ db1 :: refreshCommits db1 e := hd
    simpa using hd'
  rcases hd2 with rfl | hd2
  · exact h1
  · exact dbResidencyOK_refreshCommits db1 e h1 d hd2

theorem dbResidencyOK_map_cond (db : DB) (e : String) (g : StudentRow → StudentRow)
    (hdb : dbResidencyOK db) (hg : ∀ s ∈ db.students, residencyOK (g s)) :
    dbResidencyOK (updateStudents db e g) := by
  intro s hs
  have hs2 : s ∈ db.students.map (fun s => if s.user_email == e then g s else s) := hs
  rw [List.mem_map] at hs2
  obtain ⟨s0, hs0, rfl⟩ := hs2
  by_cases hb : (s0.user_email == e) = true
  · rw [if_pos hb]
    exact hg s0 hs0
  · rw [if_neg hb]
    exact hdb s0 hs0

theorem regRow_residencyOK (db : DB) (inp : RegInput)
    (h4 : ¬(inp.scholar_type = "Hosteller" ∧ (inp.warden_name = "" ∨ inp.room_no = ""))) :
    residencyOK (regRow db inp) :=
  residencyOK_write inp.scholar_type inp.warden_name inp.room_no h4 _ rfl rfl rfl

theorem dbResidencyOK_regDB1 (db : DB) (inp : RegInput) (hdb : dbResidencyOK db)
    (h4 : ¬(inp.scholar_type = "Hosteller" ∧ (inp.warden_name = "" ∨ inp.room_no = ""))) :
    dbResidencyOK (regDB1 db inp) := by
  intro s hs
  have hs2 : s ∈ db.students ++ [regRow db inp] := hs
  rw [List.mem_append] at hs2
  rcases hs2 with hs2 | hs2
  · exact hdb s hs2
  · have : s = regRow db inp := by simpa using hs2
    rw [this]
    exact regRow_residencyOK db inp h4

/-- C4: every write path to a student record preserves the residency
invariant (Hosteller ⇒ warden and room recorded; Day Scholar ⇒ both forced
empty): registration, the student profile form and the staff edit form all
keep every committed database state residency-consistent, and an attempt to
store a Hosteller with an empty warden or room is rejected with the message
"If Hosteller: warden name + room no required" and commits nothing. -/
theorem C4_residency_invariant (db : DB) (hdb : dbResidencyOK db) :
    (∀ (inp : RegInput), ∀ d ∈ (register_student db inp).1, dbResidencyOK d) ∧
    (∀ (e : String) (f : PortalForm), ∀ d ∈ (student_portal db e f).1, dbResidencyOK d) ∧
    (∀ (sid : ℤ) (inp : StaffEditInput), ∀ d ∈ (staff_student_edit db sid inp).1,
      dbResidencyOK d) ∧
    (∀ (e : String) (st : StudentRow) (n c p pp ad dp mn wn rn : String),
      findStudent db e = some st →
      (wn = "" ∨ rn = "") →
      ¬(n = "" ∨ c = "" ∨ p = "" ∨ pp = "" ∨ ad = "" ∨ dp = "" ∨ mn = "") →
      student_portal db e (.profile n c p pp ad dp mn "Hosteller" wn rn) =
        ([], some "If Hosteller: warden name + room no required")) ∧
    (∀ (sid : ℤ) (st : StudentRow) (inp : StaffEditInput),
      db.students.find? (fun s => s.id == sid) = some st →
      inp.scholar_type = "Hosteller" → (inp.warden_name = "" ∨ inp.room_no = "") →
      staff_student_edit db sid inp =
        ([], some "If Hosteller: warden name + room no required")) ∧
    (∀ (inp : RegInput), inp.scholar_type = "Hosteller" →
      (inp.warden_name = "" ∨ inp.room_no = "") →
      (register_student db inp).1 = [] ∧
      (¬ regMissingRequired inp → validate_email_role inp.login_email "student" = true →
        ¬ (parse_ymd inp.semester_start).isNone = true →
        (register_student db inp).2 =
          some "If Hosteller: warden name + room no required")) := by
  refine ⟨?_, ?_, ?_, ?_, ?_, ?_⟩
  · -- registration preserves the invariant in every committed state
    intro inp d hd
    by_cases h1 : regMissingRequired inp
    · rw [show (register_student db inp).1 = [] by
        simp only [register_student]; rw [if_pos h1]] at hd
      exact absurd hd (List.not_mem_nil d)
    by_cases h2 : ¬ validate_email_role inp.login_email "student" = true
    · rw [show (register_student db inp).1 = [] by
        simp only [register_student]; rw [if_neg h1, if_pos h2]] at hd
      exact absurd hd (List.not_mem_nil d)
    by_cases h3 : (parse_ymd inp.semester_start).isNone = true
    · rw [show (register_student db inp).1 = [] by
        simp only [register_student]; rw [if_neg h1, if_neg h2, if_pos h3]] at hd
      exact absurd hd (List.not_mem_nil d)
    by_cases h4 : inp.scholar_type = "Hosteller" ∧ (inp.warden_name = "" ∨ inp.room_no = "")
    · rw [show (register_student db inp).1 = [] by
        simp only [register_student]; rw [if_neg h1, if_neg h2, if_neg h3, if_pos h4]] at hd
      exact absurd hd (List.not_mem_nil d)
    by_cases h5 : inp.login_email ∈ db.users ∨
        db.students.any (fun s => s.user_email == inp.login_email || s.roll == inp.roll) = true
    · rw [show (register_student db inp).1 = [] by
        simp only [register_student]
        rw [if_neg h1, if_neg h2, if_neg h3, if_neg h4, if_pos h5]] at hd
      exact absurd hd (List.not_mem_nil d)
    · rw [show register_student db inp = commitWithRefresh (regDB1 db inp) inp.login_email by
        simp only [register_student]
        rw [if_neg h1, if_neg h2, if_neg h3, if_neg h4, if_neg h5]] at hd
      exact dbResidencyOK_commitWithRefresh _ _ (dbResidencyOK_regDB1 db inp hdb h4) d hd
  · -- the student portal preserves the invariant in every committed state
    intro e f d hd
    cases hfind : findStudent db e with
    | none =>
        rw [show (student_portal db e f).1 = [] by
          unfold student_portal; rw [hfind]] at hd
        exact absurd hd (List.not_mem_nil d)
    | some st =>
        cases f with
        | profile n c p pp ad dp mn sc wn rn =>
            by_cases hreq : n = "" ∨ c = "" ∨ p = "" ∨ pp = "" ∨ ad = "" ∨ dp = "" ∨ mn = ""
            · revert hd
              simp only [student_portal, hfind]
              rw [if_pos hreq]
              intro hd
              exact absurd hd (List.not_mem_nil d)
            by_cases h4 : sc = "Hosteller" ∧ (wn = "" ∨ rn = "")
            · revert hd
              simp only [student_portal, hfind]
              rw [if_neg hreq, if_pos h4]
              intro hd
              exact absurd hd (List.not_mem_nil d)
            · revert hd
              simp only [student_portal, hfind]
              rw [if_neg hreq, if_neg h4]
              intro hd
              have hd2 : d = updateStudents db e (fun s =>
                  { s with
                    name := n, contact_email := c, phone := p, parent_phone := pp,
                    address := ad, department := dp, mentor_name := mn,
                    scholar_type := sc,
                    warden_name := if sc = "Hosteller" then wn else "",
                    room_no := if sc = "Hosteller" then rn else "" }) := by
                simpa using hd
              rw [hd2]
              exact dbResidencyOK_map_cond db e _ hdb
                (fun s0 _ => residencyOK_write sc wn rn h4 _ rfl rfl rfl)
        | academics ss pd ac s1 s2 s3 s4 s5 s6 s7 s8 =>
            by_cases hp : (parse_ymd ss).isNone = true
            · revert hd
              simp only [student_portal, hfind]
              rw [if_pos hp]
              intro hd
              exact absurd hd (List.not_mem_nil d)
            · revert hd
              simp only [student_portal, hfind]
              rw [if_neg hp]
              intro hd
              refine dbResidencyOK_commitWithRefresh _ _ ?_ d hd
              exact dbResidencyOK_map_cond db e _ hdb
                (fun s0 hs0 => residencyOK_fields_eq s0 _ rfl rfl rfl (hdb s0 hs0))
        | skill_add nm lv =>
            by_cases hn : nm = ""
            · revert hd
              simp only [student_portal, hfind]
              rw [if_pos hn]
              intro hd
              exact absurd hd (List.not_mem_nil d)
            · revert hd
              simp only [student_portal, hfind]
              rw [if_neg hn]
              intro hd
              refine dbResidencyOK_commitWithRefresh _ _ ?_ d hd
              exact fun s hs => hdb s hs
        | skill_delete i =>
            revert hd
            simp only [student_portal, hfind]
            intro hd
            refine dbResidencyOK_commitWithRefresh _ _ ?_ d hd
            exact fun s hs => hdb s hs
        | ach_add t l ds dsc =>
            by_cases hn : t = ""
            · revert hd
              simp only [student_portal, hfind]
              rw [if_pos hn]
              intro hd
              exact absurd hd (List.not_mem_nil d)
            · revert hd
              simp only [student_portal, hfind]
              rw [if_neg hn]
              intro hd
              refine dbResidencyOK_commitWithRefresh _ _ ?_ d hd
              exact fun s hs => hdb s hs
        | ach_delete i =>
            revert hd
            simp only [student_portal, hfind]
            intro hd
            refine dbResidencyOK_commitWithRefresh _ _ ?_ d hd
            exact fun s hs => hdb s hs
        | cert_add nm pv idt url =>
            by_cases hn : nm = ""
            · revert hd
              simp only [student_portal, hfind]
              rw [if_pos hn]
              intro hd
              exact absurd hd (List.not_mem_nil d)
            · revert hd
              simp only [student_portal, hfind]
              rw [if_neg hn]
              intro hd
              refine dbResidencyOK_commitWithRefresh _ _ ?_ d hd
              exact fun s hs => hdb s hs
        | cert_delete i =>
            revert hd
            simp only [student_portal, hfind]
            intro hd
            refine dbResidencyOK_commitWithRefresh _ _ ?_ d hd
            exact fun s hs => hdb s hs
  · -- the staff edit preserves the invariant in every committed state
    intro sid inp d hd
    cases hfid : db.students.find? (fun s => s.id == sid) with
    | none =>
        rw [show (staff_student_edit db sid inp).1 = [] by
          unfold staff_student_edit; rw [hfid]] at hd
        exact absurd hd (List.not_mem_nil d)
    | some st =>
        by_cases h4 : inp.scholar_type = "Hosteller" ∧ (inp.warden_name = "" ∨ inp.room_no = "")
        · revert hd
          simp only [staff_student_edit, hfid]
          rw [if_pos h4]
          intro hd
          exact absurd hd (List.not_mem_nil d)
        by_cases hreq : inp.name = "" ∨ inp.contact_email = "" ∨ inp.phone = "" ∨
            inp.parent_phone = "" ∨ inp.address = "" ∨ inp.department = "" ∨
            inp.mentor_name = "" ∨ inp.semester_start = ""
        · revert hd
          simp only [staff_student_edit, hfid]
          rw [if_neg h4, if_pos hreq]
          intro hd
          exact absurd hd (List.not_mem_nil d)
        by_cases hp : (parse_ymd inp.semester_start).isNone = true
        · revert hd
          simp only [staff_student_edit, hfid]
          rw [if_neg h4, if_neg hreq, if_pos hp]
          intro hd
          exact absurd hd (List.not_mem_nil d)
        · revert hd
          simp only [staff_student_edit, hfid]
          rw [if_neg h4, if_neg hreq, if_neg hp]
          intro hd
          refine dbResidencyOK_commitWithRefresh _ _ ?_ d hd
          intro s hs
          have hs2 : s ∈ db.students.map (fun s =>
              if s.id == sid then
                { s with
                  name := inp.name, contact_email := inp.contact_email, phone := inp.phone,
                  parent_phone := inp.parent_phone, address := inp.address,
                  department := inp.department, mentor_name := inp.mentor_name,
                  scholar_type := inp.scholar_type,
                  warden_name := if inp.scholar_type = "Hosteller" then inp.warden_name else "",
                  room_no := if inp.scholar_type = "Hosteller" then inp.room_no else "",
                  semester_start := inp.semester_start,
                  present_days := max 0 inp.present_days,
                  arrear_count := max 0 inp.arrear_count,
                  sem1 := inp.sem1, sem2 := inp.sem2, sem3 := inp.sem3, sem4 := inp.sem4,
                  sem5 := inp.sem5, sem6 := inp.sem6, sem7 := inp.sem7, sem8 := inp.sem8 }
              else s) := hs
          rw [List.mem_map] at hs2
          obtain ⟨s0, hs0, rfl⟩ := hs2
          by_cases hb : (s0.id == sid) = true
          · rw [if_pos hb]
            exact residencyOK_write inp.scholar_type inp.warden_name inp.room_no h4 _ rfl rfl rfl
          · rw [if_neg hb]
            exact hdb s0 hs0
  · -- the profile form rejects a Hosteller without warden/room
    intro e st n c p pp ad dp mn wn rn hfind hwr hreq
    simp only [student_portal, hfind]
    rw [if_neg hreq, if_pos (⟨trivial, hwr⟩ : True ∧ (wn = "" ∨ rn = ""))]
  · -- the staff edit rejects a Hosteller without warden/room
    intro sid st inp hfid hH hwr
    simp only [staff_student_edit, hfid]
    rw [if_pos ⟨hH, hwr⟩]
  · -- registration rejects a Hosteller without warden/room and commits nothing
    intro inp hH hwr
    constructor
    · simp only [register_student]
      by_cases h1 : regMissingRequired inp
      · rw [if_pos h1]
      rw [if_neg h1]
      by_cases h2 : ¬ validate_email_role inp.login_email "student" = true
      · rw [if_pos h2]
      rw [if_neg h2]
      by_cases h3 : (parse_ymd inp.semester_start).isNone = true
      · rw [if_pos h3]
      rw [if_neg h3, if_pos ⟨hH, hwr⟩]
    · intro hreq hval hdate
      simp only [register_student]
      rw [if_neg hreq, if_neg (not_not_intro hval), if_neg hdate, if_pos ⟨hH, hwr⟩]

/-- Closed witness for `C4_residency_invariant`: a profile update switching
to Hosteller with an empty warden is rejected with the exact message and
commits nothing. -/
theorem C4_residency_invariant_witness :
    student_portal c3DB wEmail
      (.profile "A" "a@b.c" "1" "2" "addr" "CSE" "M" "Hosteller" "" "12") =
      ([], some "If Hosteller: warden name + room no required") :=
  (C4_residency_invariant c3DB (by decide)).2.2.2.1 wEmail baseRow
    "A" "a@b.c" "1" "2" "addr" "CSE" "M" "" "12" c3_find_db (Or.inl rfl) (by decide)

theorem char_toNat_inj (a b : Char) (h : a.toNat = b.toNat) : a = b :=
  Char.eq_of_val_eq (UInt32.ext h)

theorem digitChar_toNat (k : ℕ) (hk : k ≤ 9) : (Nat.digitChar k).toNat = 48 + k := by
  interval_cases k <;> decide

theorem digitChar_isDigit (k : ℕ) (hk : k ≤ 9) : (Nat.digitChar k).isDigit = true := by
  interval_cases k <;> decide

theorem digitVal_digitChar (k : ℕ) (hk : k ≤ 9) : digitVal (Nat.digitChar k) = k := by
  unfold digitVal
  rw [digitChar_toNat k hk]
  omega

theorem isDigit_toNat_bounds (c : Char) (h : c.isDigit = true) :
    48 ≤ c.toNat ∧ c.toNat ≤ 57 := by
  simp [Char.isDigit] at h
  exact h

theorem digitVal_le_of_isDigit (c : Char) (h : c.isDigit = true) : digitVal c ≤ 9 := by
  have := isDigit_toNat_bounds c h
  unfold digitVal
  omega

theorem char_eq_digitChar (c : Char) (h : c.isDigit = true) :
    Nat.digitChar (digitVal c) = c := by
  have hb := isDigit_toNat_bounds c h
  apply char_toNat_inj
  rw [digitChar_toNat (digitVal c) (digitVal_le_of_isDigit c h)]
  unfold digitVal
  omega

theorem parseNum2or1_two (hi n : ℕ) (h1 : 1 ≤ n) (h2 : n ≤ hi) (h99 : n ≤ 99)
    (rest : List Char) : parseNum2or1 hi (numChars2 n ++ rest) = some (n, rest) := by
  have ha : (Nat.digitChar (n / 10)).isDigit = true := digitChar_isDigit _ (by omega)
  have hb : (Nat.digitChar (n % 10)).isDigit = true := digitChar_isDigit _ (by omega)
  have hva : digitVal (Nat.digitChar (n / 10)) = n / 10 := digitVal_digitChar _ (by omega)
  have hvb : digitVal (Nat.digitChar (n % 10)) = n % 10 := digitVal_digitChar _ (by omega)
  show parseNum2or1 hi (Nat.digitChar (n / 10) :: Nat.digitChar (n % 10) :: rest) =
    some (n, rest)
  simp only [parseNum2or1, hva, hvb, Nat.div_add_mod]
  rw [if_pos ⟨ha, hb, h1, h2⟩]

theorem parseNum2or1_one_dash (hi n : ℕ) (h1 : 1 ≤ n) (h9 : n ≤ 9) (rest : List Char) :
    parseNum2or1 hi (numChars1 n ++ ('-' :: rest)) = some (n, '-' :: rest) := by
  have ha : (Nat.digitChar n).isDigit = true := digitChar_isDigit _ h9
  have hva : digitVal (Nat.digitChar n) = n := digitVal_digitChar _ h9
  show parseNum2or1 hi (Nat.digitChar n :: '-' :: rest) = some (n, '-' :: rest)
  simp only [parseNum2or1, hva]
  split
  · rename_i hcond
    exact absurd hcond.2.1 (by decide)
  · rw [if_pos ⟨ha, h1⟩]

theorem parseNum2or1_one_nil (hi n : ℕ) (h1 : 1 ≤ n) (h9 : n ≤ 9) :
    parseNum2or1 hi (numChars1 n ++ ([] : List Char)) = some (n, []) := by
  have ha : (Nat.digitChar n).isDigit = true := digitChar_isDigit _ h9
  have hva : digitVal (Nat.digitChar n) = n := digitVal_digitChar _ h9
  show parseNum2or1 hi [Nat.digitChar n] = some (n, [])
  simp only [parseNum2or1, hva]
  rw [if_pos ⟨ha, h1⟩]

theorem parseNum2or1_sound (hi : ℕ) (h9 : 9 ≤ hi) (cs : List Char) (n : ℕ)
    (rest : List Char) (h : parseNum2or1 hi cs = some (n, rest)) :
    1 ≤ n ∧ n ≤ hi ∧
      ((n ≤ 99 ∧ cs = numChars2 n ++ rest) ∨ (n ≤ 9 ∧ cs = numChars1 n ++ rest)) := by
  match cs with
  | [] => simp [parseNum2or1] at h
  | [a] =>
      simp only [parseNum2or1] at h
      split at h
      · rename_i hcond
        obtain ⟨hd, h1⟩ := hcond
        have h9a := digitVal_le_of_isDigit a hd
        injection h with h
        injection h with hn hrest
        subst hn
        subst hrest
        refine ⟨h1, by omega, Or.inr ⟨h9a, ?_⟩⟩
        show [a] = [Nat.digitChar (digitVal a)] ++ []
        rw [char_eq_digitChar a hd]
        rfl
      · exact absurd h (by simp)
  | a :: b :: rest0 =>
      simp only [parseNum2or1] at h
      split at h
      · rename_i hcond
        obtain ⟨hda, hdb, h1, h2⟩ := hcond
        have h9a := digitVal_le_of_isDigit a hda
        have h9b := digitVal_le_of_isDigit b hdb
        injection h with h
        injection h with hn hrest
        subst hn
        subst hrest
        refine ⟨h1, h2, Or.inl ⟨by omega, ?_⟩⟩
        show a :: b :: rest0 = numChars2 (10 * digitVal a + digitVal b) ++ rest0
        unfold numChars2
        have hva : (10 * digitVal a + digitVal b) / 10 = digitVal a := by omega
        have hvb : (10 * digitVal a + digitVal b) % 10 = digitVal b := by omega
        rw [hva, hvb, char_eq_digitChar a hda, char_eq_digitChar b hdb]
        rfl
      · split at h
        · rename_i hcond2
          obtain ⟨hda, h1⟩ := hcond2
          have h9a := digitVal_le_of_isDigit a hda
          injection h with h
          injection h with hn hrest
          subst hn
          subst hrest
          refine ⟨h1, by omega, Or.inr ⟨h9a, ?_⟩⟩
          show a :: b :: rest0 = [Nat.digitChar (digitVal a)] ++ (b :: rest0)
          rw [char_eq_digitChar a hda]
          rfl
        · exact absurd h (by simp)

theorem daysInMonth_le_31 (y m : ℕ) : daysInMonth y m ≤ 31 := by
  unfold daysInMonth
  split
  · split <;> omega
  · split <;> omega

theorem numForms_mem (n : ℕ) (form : List Char) (h : form ∈ numForms n) :
    form = numChars2 n ∨ (n ≤ 9 ∧ form = numChars1 n) := by
  unfold numForms at h
  by_cases h10 : n < 10
  · rw [if_pos h10] at h
    simp at h
    rcases h with h | h
    · exact Or.inl h
    · exact Or.inr ⟨by omega, h⟩
  · rw [if_neg h10] at h
    simp at h
    exact Or.inl h

theorem numChars2_mem_numForms (n : ℕ) : numChars2 n ∈ numForms n := by
  unfold numForms
  split <;> simp

theorem numChars1_mem_numForms (n : ℕ) (h : n ≤ 9) : numChars1 n ∈ numForms n := by
  unfold numForms
  rw [if_pos (by omega : n < 10)]
  simp

theorem parseYMDCore_of_rendering (y m d : ℕ) (hv : validDate y m d) (cs : List Char)
    (hcs : cs ∈ ymdRenderings y m d) : parseYMDCore cs = some (y, m, d) := by
  obtain ⟨hy1, hy2, hm1, hm2, hd1, hd2⟩ := hv
  have hd31 : d ≤ 31 := le_trans hd2 (daysInMonth_le_31 y m)
  unfold ymdRenderings at hcs
  rw [List.mem_flatMap] at hcs
  obtain ⟨mf, hmf, hcs⟩ := hcs
  rw [List.mem_map] at hcs
  obtain ⟨df, hdf, rfl⟩ := hcs
  have hda : (Nat.digitChar (y / 1000)).isDigit = true := digitChar_isDigit _ (by omega)
  have hdb : (Nat.digitChar (y / 100 % 10)).isDigit = true := digitChar_isDigit _ (by omega)
  have hdc : (Nat.digitChar (y / 10 % 10)).isDigit = true := digitChar_isDigit _ (by omega)
  have hdd0 : (Nat.digitChar (y % 10)).isDigit = true := digitChar_isDigit _ (by omega)
  have hva : digitVal (Nat.digitChar (y / 1000)) = y / 1000 := digitVal_digitChar _ (by omega)
  have hvb : digitVal (Nat.digitChar (y / 100 % 10)) = y / 100 % 10 :=
    digitVal_digitChar _ (by omega)
  have hvc : digitVal (Nat.digitChar (y / 10 % 10)) = y / 10 % 10 :=
    digitVal_digitChar _ (by omega)
  have hvd : digitVal (Nat.digitChar (y % 10)) = y % 10 := digitVal_digitChar _ (by omega)
  have hyrec : 1000 * (y / 1000) + 100 * (y / 100 % 10) + 10 * (y / 10 % 10) + y % 10 = y := by
    omega
  have hmonth : ∀ r, parseNum2or1 12 (mf ++ ('-' :: r)) = some (m, '-' :: r) := by
    intro r
    rcases numForms_mem m mf hmf with hform | ⟨hm9, hform⟩
    · rw [hform]
      exact parseNum2or1_two 12 m hm1 hm2 (by omega) ('-' :: r)
    · rw [hform]
      exact parseNum2or1_one_dash 12 m hm1 hm9 r
  have hday : parseNum2or1 31 df = some (d, []) := by
    rcases numForms_mem d df hdf with hform | ⟨hd9, hform⟩
    · rw [hform]
      have := parseNum2or1_two 31 d hd1 hd31 (by omega) []
      rwa [List.append_nil] at this
    · rw [hform]
      have := parseNum2or1_one_nil 31 d hd1 hd9
      rwa [List.append_nil] at this
  show parseYMDCore (Nat.digitChar (y / 1000) :: Nat.digitChar (y / 100 % 10) ::
    Nat.digitChar (y / 10 % 10) :: Nat.digitChar (y % 10) :: '-' :: (mf ++ '-' :: df)) =
    some (y, m, d)
  simp only [parseYMDCore, hda, hdb, hdc, hdd0, hva, hvb, hvc, hvd, hyrec, hmonth, hday,
    if_pos, and_self, if_true]
  rw [if_pos ⟨hy1, hd2⟩]

theorem parseYMDCore_sound (cs : List Char) (y m d : ℕ)
    (h : parseYMDCore cs = some (y, m, d)) :
    validDate y m d ∧ cs ∈ ymdRenderings y m d := by
  unfold parseYMDCore at h
  split at h
  · rename_i a b c d4 rest1
    split at h
    · rename_i hdig
      obtain ⟨hda, hdb, hdc, hdd4⟩ := hdig
      have h9a := digitVal_le_of_isDigit a hda
      have h9b := digitVal_le_of_isDigit b hdb
      have h9c := digitVal_le_of_isDigit c hdc
      have h9d := digitVal_le_of_isDigit d4 hdd4
      split at h
      · rename_i m0 rest2 heqm
        split at h
        · rename_i d0 heqd
          simp only [] at h
          split at h
          · rename_i hok
            injection h with h
            injection h with hy hmd
            injection hmd with hm hd
            subst hy
            subst hm
            subst hd
            obtain ⟨hm1, hm2, hmform⟩ :=
              parseNum2or1_sound 12 (by omega) rest1 m0 ('-' :: rest2) heqm
            obtain ⟨hd1, hd2, hdform⟩ := parseNum2or1_sound 31 (by omega) rest2 d0 [] heqd
            have hy9999 : 1000 * digitVal a + 100 * digitVal b + 10 * digitVal c +
                digitVal d4 ≤ 9999 := by omega
            refine ⟨⟨hok.1, hy9999, hm1, hm2, hd1, hok.2⟩, ?_⟩
            have hdigits : [a, b, c, d4] = digits4 (1000 * digitVal a + 100 * digitVal b +
                10 * digitVal c + digitVal d4) := by
              unfold digits4
              have e1 : (1000 * digitVal a + 100 * digitVal b + 10 * digitVal c +
                  digitVal d4) / 1000 = digitVal a := by omega
              have e2 : (1000 * digitVal a + 100 * digitVal b + 10 * digitVal c +
                  digitVal d4) / 100 % 10 = digitVal b := by omega
              have e3 : (1000 * digitVal a + 100 * digitVal b + 10 * digitVal c +
                  digitVal d4) / 10 % 10 = digitVal c := by omega
              have e4 : (1000 * digitVal a + 100 * digitVal b + 10 * digitVal c +
                  digitVal d4) % 10 = digitVal d4 := by omega
              rw [e1, e2, e3, e4, char_eq_digitChar a hda, char_eq_digitChar b hdb,
                char_eq_digitChar c hdc, char_eq_digitChar d4 hdd4]
            unfold ymdRenderings
            rw [List.mem_flatMap]
            rcases hmform with ⟨hm99, hmf⟩ | ⟨hm9, hmf⟩
            · refine ⟨numChars2 m0, numChars2_mem_numForms m0, ?_⟩
              rw [List.mem_map]
              rcases hdform with ⟨hd99, hdf⟩ | ⟨hd9, hdf⟩
              · refine ⟨numChars2 d0, numChars2_mem_numForms d0, ?_⟩
                rw [List.append_nil] at hdf
                rw [← hdigits, hmf, hdf]
                rfl
              · refine ⟨numChars1 d0, numChars1_mem_numForms d0 hd9, ?_⟩
                rw [List.append_nil] at hdf
                rw [← hdigits, hmf, hdf]
                rfl
            · refine ⟨numChars1 m0, numChars1_mem_numForms m0 hm9, ?_⟩
              rw [List.mem_map]
              rcases hdform with ⟨hd99, hdf⟩ | ⟨hd9, hdf⟩
              · refine ⟨numChars2 d0, numChars2_mem_numForms d0, ?_⟩
                rw [List.append_nil] at hdf
                rw [← hdigits, hmf, hdf]
                rfl
              · refine ⟨numChars1 d0, numChars1_mem_numForms d0 hd9, ?_⟩
                rw [List.append_nil] at hdf
                rw [← hdigits, hmf, hdf]
                rfl
          · exact absurd h (by simp)
        · exact absurd h (by simp)
      · exact absurd h (by simp)
    · exact absurd h (by simp)
  · exact absurd h (by simp)

